import Mathlib

/-!
MovieRenderPipelineDataTypes: shot scheduling, tile weights and frame tokens.

A shallow embedding of `MovieRenderPipelineDataTypes.cpp`
(`Engine/Plugins/MovieScene/MovieRenderPipeline/Source/MovieRenderPipelineCore`).

Conventions of the embedding:

* `int32` values are integers (`Int`) in the range `[-2^31, 2^31 - 1]`. The sums, differences
  and products of `InitHelper`, the product of `CalculateWorkMetrics` and the sum of a frame
  number and the offset are computed as the compiled code computes them, wrapped into that
  range by `WrapInt32`. Differences of a pixel or index and a coordinate of a tile, loop
  counters and the pad count are plain integers.
* `int32 / int32` is C++ truncating division, `Int.tdiv`.
* `float` and `double` values are exact rationals (`ℚ`); a quotient by zero is the separate
  value `FDouble.nonFinite`.
* A failed `check(...)` stops the call; it is `Except.error`.
-/

namespace MovieRenderPipeline

/-! ## Failures -/

/-- The two kinds of failure a call can end in: a `check` on an argument of the call
(`ConfigurationError`) and a failed internal range check (`InvariantViolation`). -/
inductive PipelineError where
  | ConfigurationError
  | InvariantViolation
  deriving DecidableEq, Repr

/-- The `check(Cond)` assertion: the call goes on when `Cond` holds and stops otherwise. -/
def check (Cond : Bool) : Except PipelineError Unit :=
  if Cond then .ok () else .error .ConfigurationError

/-! ## Machine integers -/

/-- The `int32` that a two's-complement machine stores for the integer `x`: `x` itself when
`-2^31 ≤ x ≤ 2^31 - 1`, and `x` shifted by the multiple of `2^32` that brings it into that
range otherwise. -/
def WrapInt32 (x : Int) : Int :=
  (x + 2147483648) % 4294967296 - 2147483648

/-! ## Tile weights (`MoviePipeline::FTileWeight1D`) -/

/-- The four pixel coordinates of a one-dimensional tile weight curve. -/
structure FTileWeight1D where
  X0 : Int
  X1 : Int
  X2 : Int
  X3 : Int
  deriving DecidableEq, Repr

/-- `FTileWeight1D::InitHelper(PadLeft, SizeCenter, PadRight)`: the three checks, then the four
coordinates, then the two clamps against the midpoint. Every `int32` sum, difference and
product is wrapped. -/
def InitHelper (PadLeft SizeCenter PadRight : Int) : Except PipelineError FTileWeight1D := do
  check (decide (PadLeft ≥ 0))
  check (decide (SizeCenter > 0))
  check (decide (PadRight ≥ 0))
  let Size := WrapInt32 (WrapInt32 (PadLeft + SizeCenter) + PadRight)
  let Midpoint := WrapInt32 (PadLeft + Int.tdiv SizeCenter 2)
  let X0 := Int.tdiv PadLeft 2
  let X1 := Int.tdiv (WrapInt32 (3 * PadLeft)) 2
  let X2 := WrapInt32 (Size - Int.tdiv (WrapInt32 (3 * PadLeft)) 2)
  let X3 := WrapInt32 (Size - Int.tdiv PadRight 2)
  let X1 := min X1 Midpoint
  let X2 := max X2 Midpoint
  return { X0 := X0, X1 := X1, X2 := X2, X3 := X3 }

/-- `FTileWeight1D::CalculateWeight(Pixel)`: the ordered chain of comparisons, with the two
float quotients read as exact rationals. -/
def CalculateWeight (t : FTileWeight1D) (Pixel : Int) : ℚ :=
  if Pixel < t.X0 then 0
  else if Pixel < t.X1 then ((Pixel - t.X0 : Int) : ℚ) / ((t.X1 - t.X0 : Int) : ℚ)
  else if Pixel < t.X2 then 1
  else if Pixel < t.X3 then ((t.X3 - Pixel : Int) : ℚ) / ((t.X3 - t.X2 : Int) : ℚ)
  else 0

/-- The `FMath::Clamp<float>(X, Min, Max)` template: `X < Min ? Min : (X < Max ? X : Max)`. -/
def Clamp (X Min Max : ℚ) : ℚ :=
  if X < Min then Min else if X < Max then X else Max

/-- The `TArray<float>::SetNum(NewNum)` call: the array is cut or grown to `NewNum` entries,
new entries being zero; a negative `NewNum` fails the range check. -/
def SetNum (WeightData : List ℚ) (NewNum : Int) : Except PipelineError (List ℚ) :=
  if NewNum < 0 then .error .InvariantViolation
  else .ok ((WeightData ++ List.replicate NewNum.toNat 0).take NewNum.toNat)

/-- The assignment `WeightData[Index] = W`: the range check of `TArray::operator[]`, then the
store. -/
def SetAt (WeightData : List ℚ) (Index : Int) (W : ℚ) : Except PipelineError (List ℚ) :=
  if 0 ≤ Index ∧ Index < WeightData.length then .ok (WeightData.set Index.toNat W)
  else .error .InvariantViolation

/-- The stores of one loop `for (Index = Lo; Index < Hi; Index++) WeightData[Index] = F(Index)`,
in program order. -/
def ForLoopWrites (Lo Hi : Int) (F : Int → ℚ) : List (Int × ℚ) :=
  (List.range (Hi - Lo).toNat).map (fun (k : Nat) => (Lo + (k : Int), F (Lo + (k : Int))))

/-- The `ScaleLhs` local of `CalculateArrayWeight`. -/
def ScaleLhs (t : FTileWeight1D) : ℚ :=
  if t.X0 ≠ t.X1 then 1 / ((t.X1 - t.X0 : Int) : ℚ) else 0

/-- The `ScaleRhs` local of `CalculateArrayWeight`. -/
def ScaleRhs (t : FTileWeight1D) : ℚ :=
  if t.X2 ≠ t.X3 then 1 / ((t.X3 - t.X2 : Int) : ℚ) else 0

/-- The stores of the five loops of `CalculateArrayWeight`, in program order. -/
def CalculateArrayWeightWrites (t : FTileWeight1D) (Size : Int) : List (Int × ℚ) :=
  ForLoopWrites 0 t.X0 (fun _ => 0)
  ++ ForLoopWrites t.X0 t.X1
      (fun Index => Clamp ((((Index : ℚ) + 1 / 2) - (t.X0 : ℚ)) * ScaleLhs t) 0 1)
  ++ ForLoopWrites t.X1 t.X2 (fun _ => 1)
  ++ ForLoopWrites t.X2 t.X3
      (fun Index => Clamp (1 - (((Index : ℚ) + 1 / 2) - (t.X2 : ℚ)) * ScaleRhs t) 0 1)
  ++ ForLoopWrites t.X3 Size (fun _ => 0)

/-- `FTileWeight1D::CalculateArrayWeight(WeightData, Size)`: `SetNum`, then the stores of the
five loops one after the other, each behind its range check. -/
def CalculateArrayWeight (t : FTileWeight1D) (WeightData : List ℚ) (Size : Int) :
    Except PipelineError (List ℚ) := do
  let Data ← SetNum WeightData Size
  (CalculateArrayWeightWrites t Size).foldlM (fun a w => SetAt a w.1 w.2) Data

/-! ## Frame count estimate (`FMoviePipelineCameraCutInfo`) -/

/-- A frame rate, `Numerator / Denominator` frames (or ticks) per second. -/
structure FFrameRate where
  Numerator : Int
  Denominator : Int
  deriving DecidableEq, Repr

/-- The rate as an exact rational. -/
def FFrameRate.AsRational (r : FFrameRate) : ℚ :=
  (r.Numerator : ℚ) / (r.Denominator : ℚ)

/-- A half-open range `[LowerBound, UpperBound)` of tick numbers (`TRange<FFrameNumber>`). -/
structure TRange where
  LowerBound : Int
  UpperBound : Int
  deriving DecidableEq, Repr

/-- Modelled from the spec: `TRange<FFrameNumber>::Size`, declared outside this file. The length
of the half-open interval in ticks. -/
def TRange.Size (r : TRange) : Int :=
  r.UpperBound - r.LowerBound

/-- Modelled from the spec: `FFrameRate::TransformTime(Time, Source, Destination).FloorToFrame()`,
declared outside this file. The time is converted between the two rates by exact rational
arithmetic and floored to a whole number. -/
def TransformTimeFloor (Time : Int) (Source Destination : FFrameRate) : Int :=
  Int.floor ((Time : ℚ) * (Destination.AsRational / Source.AsRational))

/-- A `double` read as an exact rational, or the non-finite result of a quotient by zero
(an infinity or a NaN). -/
inductive FDouble where
  | finite (q : ℚ)
  | nonFinite
  deriving DecidableEq

/-- The quotient `A / (double)B` of two integers. -/
def FDouble.quotient (A B : Int) : FDouble :=
  if B = 0 then .nonFinite else .finite ((A : ℚ) / (B : ℚ))

/-- Modelled from the spec: `FMath::CeilToInt`, declared outside this file. The ceiling of a
finite value. The language does not define the `int32` a non-finite value converts to;
`NonFiniteAsInt` stands for the integer the platform yields. -/
def CeilToInt (NonFiniteAsInt : Int) : FDouble → Int
  | .finite q => Int.ceil q
  | .nonFinite => NonFiniteAsInt

/-- The states of a shot (`EMovieRenderShotState`). -/
inductive EMovieRenderShotState where
  | Uninitialized
  | WarmingUp
  | MotionBlur
  | Rendering
  | Finished
  deriving DecidableEq, Repr

/-- The `WorkMetrics` member of a camera cut. -/
structure FMoviePipelineShotWorkMetrics where
  TotalOutputFrameCount : Int
  TotalSubSampleCount : Int
  TotalEngineWarmUpFrameCount : Int
  deriving DecidableEq, Repr

/-- The members of `FMoviePipelineCameraCutInfo` that this file reads or writes. -/
structure FMoviePipelineCameraCutInfo where
  CachedFrameRate : FFrameRate
  CachedTickResolution : FFrameRate
  TotalOutputRangeLocal : TRange
  NumSpatialSamples : Int
  NumTemporalSamples : Int
  NumTilesX : Int
  NumTilesY : Int
  NumEngineWarmUpFramesRemaining : Int
  bEmulateFirstFrameMotionBlur : Bool
  State : EMovieRenderShotState
  WorkMetrics : FMoviePipelineShotWorkMetrics
  deriving DecidableEq, Repr

/-- The local `OneFrameInTicks` of `GetOutputFrameCountEstimate`: one frame of the cached frame
rate, in ticks of the cached tick resolution, floored. -/
def OneFrameInTicks (c : FMoviePipelineCameraCutInfo) : Int :=
  TransformTimeFloor 1 c.CachedFrameRate c.CachedTickResolution

/-- `FMoviePipelineCameraCutInfo::GetOutputFrameCountEstimate()`. The body has one path and no
check: it always returns. -/
def GetOutputFrameCountEstimate (NonFiniteAsInt : Int) (c : FMoviePipelineCameraCutInfo) :
    Except PipelineError Int :=
  let TotalOutputRangeTicks := c.TotalOutputRangeLocal.Size
  let NumFrames := CeilToInt NonFiniteAsInt (FDouble.quotient TotalOutputRangeTicks (OneFrameInTicks c))
  .ok NumFrames

/-- `FMoviePipelineCameraCutInfo::CalculateWorkMetrics()`. The `int32` product of the four
counts is taken left to right, each product wrapped. -/
def CalculateWorkMetrics (NonFiniteAsInt : Int) (c : FMoviePipelineCameraCutInfo) :
    Except PipelineError FMoviePipelineCameraCutInfo := do
  let OutputFrameCount ← GetOutputFrameCountEstimate NonFiniteAsInt c
  return { c with
    WorkMetrics :=
      { TotalOutputFrameCount := OutputFrameCount
        TotalSubSampleCount :=
          WrapInt32 (WrapInt32 (WrapInt32 (c.NumSpatialSamples * c.NumTemporalSamples)
            * c.NumTilesX) * c.NumTilesY)
        TotalEngineWarmUpFrameCount := c.NumEngineWarmUpFramesRemaining } }

/-! ## Shot state (`FMoviePipelineCameraCutInfo::SetNextStateAfter`) -/

/-- `FMoviePipelineCameraCutInfo::SetNextStateAfter(InCurrentState)`: the switch over the
argument, which assigns the member `State` in some branches and leaves it alone in the others. -/
def SetNextStateAfter (c : FMoviePipelineCameraCutInfo) (InCurrentState : EMovieRenderShotState) :
    FMoviePipelineCameraCutInfo :=
  match InCurrentState with
  | .WarmingUp =>
    if c.NumEngineWarmUpFramesRemaining = 0 then
      if c.bEmulateFirstFrameMotionBlur then { c with State := .MotionBlur }
      else { c with State := .Rendering }
    else c
  | .Uninitialized =>
    if c.NumEngineWarmUpFramesRemaining > 0 then { c with State := .WarmingUp }
    else if c.bEmulateFirstFrameMotionBlur then { c with State := .MotionBlur }
    else { c with State := .Rendering }
  | _ => c

/-! ## Frame tokens (`FMoviePipelineFrameOutputState`) -/

/-- Modelled from the spec: `FString::Printf(TEXT("%0*d"), Width, Value)`, declared outside this
file. The decimal digits of the absolute value, after a minus sign when the value is negative,
with zeros between sign and digits up to `Width` characters in all; a negative `Width` asks for
left justification, which pads with blanks on the right up to `-Width` characters. -/
def PrintfZeroPadded (Width Value : Int) : String :=
  let Sign : List Char := if Value < 0 then ['-'] else []
  let Digits : List Char := Nat.toDigits 10 Value.natAbs
  if 0 ≤ Width then
    String.mk (Sign ++ List.replicate (Width.toNat - (Sign.length + Digits.length)) '0' ++ Digits)
  else
    String.mk (Sign ++ Digits
      ++ List.replicate ((-Width).toNat - (Sign.length + Digits.length)) ' ')

/-- The static function `GetPaddingFormatString(InZeroPadCount, InFrameNumber)`. -/
def GetPaddingFormatString (InZeroPadCount InFrameNumber : Int) : String :=
  let InZeroPadCount := if InFrameNumber < 0 then InZeroPadCount + 1 else InZeroPadCount
  PrintfZeroPadded InZeroPadCount InFrameNumber

/-- A `TMap<FString, FString>`, as the partial function from keys to values. -/
abbrev TMap := String → Option String

/-- The empty map. -/
def TMap.empty : TMap := fun _ => none

/-- `TMap::Add(Key, Value)`: the key is bound to the value, replacing an earlier binding. -/
def TMap.Add (m : TMap) (Key Value : String) : TMap :=
  fun k => if k = Key then some Value else m k

/-- The two maps of `FMoviePipelineFormatArgs`. -/
structure FMoviePipelineFormatArgs where
  FilenameArguments : TMap
  FileMetadata : TMap

/-- The members of `FMoviePipelineFrameOutputState` that `GetFilenameFormatArguments` reads. -/
structure FMoviePipelineFrameOutputState where
  SourceFrameNumber : Int
  CurrentShotSourceFrameNumber : Int
  OutputFrameNumber : Int
  ShotOutputFrameNumber : Int
  CameraName : String
  ShotName : String
  deriving DecidableEq, Repr

/-- `FMoviePipelineFrameOutputState::GetFilenameFormatArguments(InOutFormatArgs, InZeroPadCount,
InFrameNumberOffset, bForceRelFrameNumbers)`. Each `int32` sum of a frame number and the offset
is wrapped. -/
def GetFilenameFormatArguments (s : FMoviePipelineFrameOutputState)
    (InOutFormatArgs : FMoviePipelineFormatArgs) (InZeroPadCount InFrameNumberOffset : Int)
    (bForceRelFrameNumbers : Bool) : FMoviePipelineFormatArgs :=
  let FrameNumber :=
    GetPaddingFormatString InZeroPadCount (WrapInt32 (s.SourceFrameNumber + InFrameNumberOffset))
  let FrameNumberShot :=
    GetPaddingFormatString InZeroPadCount
      (WrapInt32 (s.CurrentShotSourceFrameNumber + InFrameNumberOffset))
  let FrameNumberRel :=
    GetPaddingFormatString InZeroPadCount (WrapInt32 (s.OutputFrameNumber + InFrameNumberOffset))
  let FrameNumberShotRel :=
    GetPaddingFormatString InZeroPadCount
      (WrapInt32 (s.ShotOutputFrameNumber + InFrameNumberOffset))
  let FrameNumber := if bForceRelFrameNumbers then FrameNumberRel else FrameNumber
  let FrameNumberShot := if bForceRelFrameNumbers then FrameNumberShotRel else FrameNumberShot
  let CameraName := if s.CameraName.length > 0 then s.CameraName else "NoCamera"
  let ShotName := if s.ShotName.length > 0 then s.ShotName else "NoShot"
  { FilenameArguments :=
      (((((InOutFormatArgs.FilenameArguments.Add "frame_number" FrameNumber).Add
        "frame_number_shot" FrameNumberShot).Add
        "frame_number_rel" FrameNumberRel).Add
        "frame_number_shot_rel" FrameNumberShotRel).Add
        "camera_name" CameraName).Add
        "shot_name" ShotName
    FileMetadata :=
      (((((InOutFormatArgs.FileMetadata.Add "unreal/sequenceFrameNumber" FrameNumber).Add
        "unreal/shotFrameNumber" FrameNumberShot).Add
        "unreal/sequenceFrameNumberRelative" FrameNumberRel).Add
        "unreal/shotFrameNumberRelative" FrameNumberShotRel).Add
        "unreal/cameraName" CameraName).Add
        "unreal/shotName" ShotName }

/-! ## Tiles side by side on one axis -/

/-- The weight a tile gives to global pixel `g` when its local pixel `p` sits at global pixel
`Origin + p`: `CalculateWeight` at the local pixel `g - Origin`, which is `0` where the tile
does not reach. -/
def TileWeightAtGlobal (t : FTileWeight1D) (Origin g : Int) : ℚ :=
  CalculateWeight t (g - Origin)

/-! ## The weight math with its divisions made visible -/

/-- A float quotient that records a zero divisor: `none` when the divisor is zero. -/
def FloatDiv (a b : ℚ) : Option ℚ :=
  if b = 0 then none else some (a / b)

/-- The five exits of the if-chain of `CalculateWeight`. -/
inductive EWeightBranch where
  | BelowX0
  | UpRamp
  | Plateau
  | DownRamp
  | AtOrAboveX3
  deriving DecidableEq, Repr

/-- The exit of the if-chain of `CalculateWeight` that a pixel takes. -/
def CalculateWeightBranch (t : FTileWeight1D) (Pixel : Int) : EWeightBranch :=
  if Pixel < t.X0 then .BelowX0
  else if Pixel < t.X1 then .UpRamp
  else if Pixel < t.X2 then .Plateau
  else if Pixel < t.X3 then .DownRamp
  else .AtOrAboveX3

/-- `FTileWeight1D::CalculateWeight(Pixel)` with each of its two quotients taken by `FloatDiv`:
the result is `none` if the call divides by zero. -/
def CalculateWeightChecked (t : FTileWeight1D) (Pixel : Int) : Option ℚ :=
  if Pixel < t.X0 then some 0
  else if Pixel < t.X1 then FloatDiv ((Pixel - t.X0 : Int) : ℚ) ((t.X1 - t.X0 : Int) : ℚ)
  else if Pixel < t.X2 then some 1
  else if Pixel < t.X3 then FloatDiv ((t.X3 - Pixel : Int) : ℚ) ((t.X3 - t.X2 : Int) : ℚ)
  else some 0

/-- The `ScaleLhs` local of `CalculateArrayWeight` with its quotient taken by `FloatDiv`. -/
def ScaleLhsChecked (t : FTileWeight1D) : Option ℚ :=
  if t.X0 ≠ t.X1 then FloatDiv 1 ((t.X1 - t.X0 : Int) : ℚ) else some 0

/-- The `ScaleRhs` local of `CalculateArrayWeight` with its quotient taken by `FloatDiv`. -/
def ScaleRhsChecked (t : FTileWeight1D) : Option ℚ :=
  if t.X2 ≠ t.X3 then FloatDiv 1 ((t.X3 - t.X2 : Int) : ℚ) else some 0

/-! ## The weight table as the interface describes it -/

/-- The trapezoid sampled at the centre `Index + 1/2` of a pixel: the value the interface
description gives entry `Index` of the weight table, with no clamp. -/
def CentreSample (t : FTileWeight1D) (Index : Int) : ℚ :=
  if Index < t.X0 then 0
  else if Index < t.X1 then ((Index : ℚ) + 1 / 2 - (t.X0 : ℚ)) / ((t.X1 : ℚ) - (t.X0 : ℚ))
  else if Index < t.X2 then 1
  else if Index < t.X3 then 1 - ((Index : ℚ) + 1 / 2 - (t.X2 : ℚ)) / ((t.X3 : ℚ) - (t.X2 : ℚ))
  else 0

/-! ## The frame token as the interface describes it -/

/-- The token of a frame number as the interface description words it: the decimal digits of a
number `n ≥ 0` left-padded with `'0'` to `max(w, number of digits)` characters; for `n < 0` a
minus sign followed by the digits of `|n|` left-padded in the same way. -/
def PaddedToken (w n : Int) : String :=
  let Digits : List Char := Nat.toDigits 10 n.natAbs
  let Padded : List Char := List.leftpad (max w.toNat Digits.length) '0' Digits
  if 0 ≤ n then String.mk Padded else String.mk ('-' :: Padded)

/-! ## Fixed-width decimal digits -/

/-- The `w` low decimal digits of `n` as characters, most significant first. -/
def FixedDigits : Nat → Nat → List Char
  | 0, _ => []
  | w + 1, n => FixedDigits w (n / 10) ++ [Nat.digitChar (n % 10)]

/-! ## Sample inputs -/

/-- A camera cut at 24 frames per second on a 24000 ticks per second time base, three thousand
ticks long: one frame is 1000 ticks. -/
def SampleCut : FMoviePipelineCameraCutInfo :=
  { CachedFrameRate := { Numerator := 24, Denominator := 1 }
    CachedTickResolution := { Numerator := 24000, Denominator := 1 }
    TotalOutputRangeLocal := { LowerBound := 0, UpperBound := 3000 }
    NumSpatialSamples := 1
    NumTemporalSamples := 1
    NumTilesX := 1
    NumTilesY := 1
    NumEngineWarmUpFramesRemaining := 0
    bEmulateFirstFrameMotionBlur := true
    State := .Uninitialized
    WorkMetrics :=
      { TotalOutputFrameCount := 0, TotalSubSampleCount := 0, TotalEngineWarmUpFrameCount := 0 } }

/-- A camera cut whose frame rate, 48000 per second, exceeds its tick resolution, 24000 per
second: one frame is half a tick, floored to zero ticks. The range is ten ticks long. -/
def SampleFastCut : FMoviePipelineCameraCutInfo :=
  { SampleCut with
    CachedFrameRate := { Numerator := 48000, Denominator := 1 }
    TotalOutputRangeLocal := { LowerBound := 0, UpperBound := 10 } }

/-- The sample cut with `65536` spatial and `65536` temporal samples on `1 × 1` tiles: the
product of the four counts is `2^32`. -/
def SampleWideCut : FMoviePipelineCameraCutInfo :=
  { SampleCut with NumSpatialSamples := 65536, NumTemporalSamples := 65536 }

/-- A produced frame whose four frame numbers are `5`, `5`, `0` and `0`. -/
def SampleFrame : FMoviePipelineFrameOutputState :=
  { SourceFrameNumber := 5
    CurrentShotSourceFrameNumber := 5
    OutputFrameNumber := 0
    ShotOutputFrameNumber := 0
    CameraName := ""
    ShotName := "" }

/-- A produced frame whose sequence frame number is the largest `int32`, `2147483647`. -/
def SampleFrameLast : FMoviePipelineFrameOutputState :=
  { SampleFrame with SourceFrameNumber := 2147483647 }

/-- A produced frame whose four frame numbers are all `0`. -/
def SampleFrameZero : FMoviePipelineFrameOutputState :=
  { SampleFrame with SourceFrameNumber := 0, CurrentShotSourceFrameNumber := 0 }

/-- Format arguments with two empty maps. -/
def EmptyFormatArgs : FMoviePipelineFormatArgs :=
  { FilenameArguments := TMap.empty, FileMetadata := TMap.empty }

/-! ## Facts about `InitHelper` -/

/-- An integer in the `int32` range is stored as it is. -/
theorem WrapInt32_of_range (x : Int) (h1 : -2147483648 ≤ x) (h2 : x ≤ 2147483647) :
    WrapInt32 x = x := by
  unfold WrapInt32
  omega

/-- On inputs that pass the three checks `InitHelper` returns a tile, whatever the sizes. -/
theorem InitHelper_ok_of_valid (PadLeft SizeCenter PadRight : Int)
    (hL : 0 ≤ PadLeft) (hC : 0 < SizeCenter) (hR : 0 ≤ PadRight) :
    ∃ t, InitHelper PadLeft SizeCenter PadRight = Except.ok t := by
  simp only [InitHelper, check, ge_iff_le, gt_iff_lt, hL, hC, hR, decide_True, if_true]
  exact ⟨_, rfl⟩

/-- On inputs that pass the three checks and for which `3 * PadLeft` and
`PadLeft + SizeCenter + PadRight` fit in `int32`, nothing wraps: `InitHelper` returns the tile
given by the formulas, with the truncating divisions equal to floor divisions. -/
theorem InitHelper_eq_of_valid (PadLeft SizeCenter PadRight : Int)
    (hL : 0 ≤ PadLeft) (hC : 0 < SizeCenter) (hR : 0 ≤ PadRight)
    (hP3 : 3 * PadLeft ≤ 2147483647)
    (hSz : PadLeft + SizeCenter + PadRight ≤ 2147483647) :
    InitHelper PadLeft SizeCenter PadRight = .ok
      { X0 := PadLeft / 2
        X1 := min (3 * PadLeft / 2) (PadLeft + SizeCenter / 2)
        X2 := max (PadLeft + SizeCenter + PadRight - 3 * PadLeft / 2) (PadLeft + SizeCenter / 2)
        X3 := PadLeft + SizeCenter + PadRight - PadRight / 2 } := by
  have h1 : Int.tdiv PadLeft 2 = PadLeft / 2 := Int.tdiv_eq_ediv hL (by norm_num)
  have h2 : Int.tdiv (3 * PadLeft) 2 = 3 * PadLeft / 2 :=
    Int.tdiv_eq_ediv (by omega) (by norm_num)
  have h3 : Int.tdiv SizeCenter 2 = SizeCenter / 2 := Int.tdiv_eq_ediv (by omega) (by norm_num)
  have h4 : Int.tdiv PadRight 2 = PadRight / 2 := Int.tdiv_eq_ediv hR (by norm_num)
  have w1 : WrapInt32 (PadLeft + SizeCenter) = PadLeft + SizeCenter :=
    WrapInt32_of_range _ (by omega) (by omega)
  have w2 : WrapInt32 (PadLeft + SizeCenter + PadRight) = PadLeft + SizeCenter + PadRight :=
    WrapInt32_of_range _ (by omega) (by omega)
  have w3 : WrapInt32 (PadLeft + SizeCenter / 2) = PadLeft + SizeCenter / 2 :=
    WrapInt32_of_range _ (by omega) (by omega)
  have w4 : WrapInt32 (3 * PadLeft) = 3 * PadLeft :=
    WrapInt32_of_range _ (by omega) (by omega)
  have w5 : WrapInt32 (PadLeft + SizeCenter + PadRight - 3 * PadLeft / 2)
      = PadLeft + SizeCenter + PadRight - 3 * PadLeft / 2 :=
    WrapInt32_of_range _ (by omega) (by omega)
  have w6 : WrapInt32 (PadLeft + SizeCenter + PadRight - PadRight / 2)
      = PadLeft + SizeCenter + PadRight - PadRight / 2 :=
    WrapInt32_of_range _ (by omega) (by omega)
  simp only [InitHelper, check, h1, h3, h4, w1, w2, w3, w4, h2, w5, w6, ge_iff_le, gt_iff_lt,
    hL, hC, hR, decide_True, if_true]
  rfl

/-- Every value of `CalculateWeight` lies in `[0, 1]`, for any four coordinates. -/
theorem CalculateWeight_mem_unit (t : FTileWeight1D) (Pixel : Int) :
    0 ≤ CalculateWeight t Pixel ∧ CalculateWeight t Pixel ≤ 1 := by
  unfold CalculateWeight
  split_ifs with h0 h1 h2 h3
  · exact ⟨le_refl _, zero_le_one⟩
  · have hp : (0 : ℚ) < ((t.X1 - t.X0 : Int) : ℚ) := by exact_mod_cast (by omega : 0 < t.X1 - t.X0)
    have hn : (0 : ℚ) ≤ ((Pixel - t.X0 : Int) : ℚ) := by exact_mod_cast (by omega : 0 ≤ Pixel - t.X0)
    have hle : ((Pixel - t.X0 : Int) : ℚ) ≤ ((t.X1 - t.X0 : Int) : ℚ) := by
      exact_mod_cast (by omega : Pixel - t.X0 ≤ t.X1 - t.X0)
    exact ⟨div_nonneg hn hp.le, (div_le_one hp).mpr hle⟩
  · exact ⟨zero_le_one, le_refl _⟩
  · have hp : (0 : ℚ) < ((t.X3 - t.X2 : Int) : ℚ) := by exact_mod_cast (by omega : 0 < t.X3 - t.X2)
    have hn : (0 : ℚ) ≤ ((t.X3 - Pixel : Int) : ℚ) := by exact_mod_cast (by omega : 0 ≤ t.X3 - Pixel)
    have hle : ((t.X3 - Pixel : Int) : ℚ) ≤ ((t.X3 - t.X2 : Int) : ℚ) := by
      exact_mod_cast (by omega : t.X3 - Pixel ≤ t.X3 - t.X2)
    exact ⟨div_nonneg hn hp.le, (div_le_one hp).mpr hle⟩
  · exact ⟨le_refl _, zero_le_one⟩

/-! ## Facts about the stores of `CalculateArrayWeight` -/

/-- One loop of stores that stays inside the array succeeds, keeps the length, puts `F i` at
every index `i` of `[Lo, Lo + n)` and leaves the other entries alone. -/
theorem foldlM_SetAt_range (F : Int → ℚ) (Lo : Int) (hLo : 0 ≤ Lo) (n : Nat) (a : List ℚ)
    (hHi : Lo + (n : Int) ≤ (a.length : Int)) :
    ∃ b, ((List.range n).map (fun (k : Nat) => (Lo + (k : Int), F (Lo + (k : Int))))).foldlM
          (fun a w => SetAt a w.1 w.2) a = Except.ok b
      ∧ b.length = a.length
      ∧ ∀ i : Nat, b[i]? = if Lo ≤ (i : Int) ∧ (i : Int) < Lo + (n : Int) then
          (if i < a.length then some (F (i : Int)) else none) else a[i]? := by
  induction n with
  | zero =>
    refine ⟨a, rfl, rfl, fun i => ?_⟩
    have : ¬ (Lo ≤ (i : Int) ∧ (i : Int) < Lo + ((0 : Nat) : Int)) := by
      intro h
      have := h.1
      have := h.2
      omega
    rw [if_neg this]
  | succ m ih =>
    obtain ⟨b, hb, hlen, hget⟩ := ih (by push_cast at hHi ⊢; omega)
    have hin : 0 ≤ Lo + (m : Int) ∧ Lo + (m : Int) < (b.length : Int) := by
      rw [hlen]; push_cast at hHi; omega
    refine ⟨b.set (Lo + (m : Int)).toNat (F (Lo + (m : Int))), ?_, ?_, fun i => ?_⟩
    · rw [List.range_succ, List.map_append, List.foldlM_append, hb]
      show (List.foldlM (fun a w => SetAt a w.1 w.2) b
        [(Lo + (m : Int), F (Lo + (m : Int)))]) = _
      simp only [List.foldlM_cons, List.foldlM_nil, SetAt, hin, and_self, if_true]
      rfl
    · rw [List.length_set, hlen]
    · rw [List.getElem?_set, hget i]
      have hm : ((Lo + (m : Int)).toNat : Int) = Lo + (m : Int) := Int.toNat_of_nonneg hin.1
      by_cases hi : (Lo + (m : Int)).toNat = i
      · have hi2 : (i : Int) = Lo + (m : Int) := by rw [← hi, hm]
        have hlt : i < a.length := by
          have := hin.2
          rw [hlen] at this
          omega
        have hc : Lo ≤ (i : Int) ∧ (i : Int) < Lo + ((m + 1 : Nat) : Int) := by
          push_cast; omega
        have hb2 : (Lo + (m : Int)).toNat < b.length := by rw [hi, hlen]; exact hlt
        rw [if_pos hi, if_pos hb2, if_pos hc, if_pos hlt, hi2]
      · rw [if_neg hi]
        have hne : (i : Int) ≠ Lo + (m : Int) := by
          intro h
          apply hi
          rw [← h]
          exact Int.toNat_ofNat i
        by_cases hc : Lo ≤ (i : Int) ∧ (i : Int) < Lo + (m : Int)
        · have hc2 : Lo ≤ (i : Int) ∧ (i : Int) < Lo + ((m + 1 : Nat) : Int) := by
            push_cast; omega
          rw [if_pos hc, if_pos hc2]
        · have hc2 : ¬ (Lo ≤ (i : Int) ∧ (i : Int) < Lo + ((m + 1 : Nat) : Int)) := by
            push_cast; omega
          rw [if_neg hc, if_neg hc2]

/-- One `for` loop of stores with `0 ≤ Lo` and `Hi` within the array succeeds, keeps the length,
puts `F i` at every index of `[Lo, Hi)` and leaves the other entries alone. An empty loop
(`Hi ≤ Lo`) stores nothing. -/
theorem foldlM_SetAt_ForLoopWrites (F : Int → ℚ) (Lo Hi : Int) (a : List ℚ) (hLo : 0 ≤ Lo)
    (hHi : Hi ≤ (a.length : Int)) :
    ∃ b, (ForLoopWrites Lo Hi F).foldlM (fun a w => SetAt a w.1 w.2) a = Except.ok b
      ∧ b.length = a.length
      ∧ ∀ i : Nat, i < a.length →
          b[i]? = if Lo ≤ (i : Int) ∧ (i : Int) < Hi then some (F (i : Int)) else a[i]? := by
  by_cases hempty : Hi ≤ Lo
  · have h0 : (Hi - Lo).toNat = 0 := by omega
    refine ⟨a, ?_, rfl, fun i _ => ?_⟩
    · simp only [ForLoopWrites, h0, List.range_zero, List.map_nil, List.foldlM_nil]
      rfl
    · have hc : ¬ (Lo ≤ (i : Int) ∧ (i : Int) < Hi) := by omega
      rw [if_neg hc]
  · obtain ⟨b, hb, hlen, hget⟩ := foldlM_SetAt_range F Lo hLo (Hi - Lo).toNat a (by omega)
    refine ⟨b, hb, hlen, fun i hi => ?_⟩
    rw [hget i]
    by_cases hc : Lo ≤ (i : Int) ∧ (i : Int) < Hi
    · have hc2 : Lo ≤ (i : Int) ∧ (i : Int) < Lo + ((Hi - Lo).toNat : Int) := by omega
      rw [if_pos hc, if_pos hc2, if_pos hi]
    · have hc2 : ¬ (Lo ≤ (i : Int) ∧ (i : Int) < Lo + ((Hi - Lo).toNat : Int)) := by omega
      rw [if_neg hc, if_neg hc2]

/-- Stores applied after a run of stores that succeeded start from the array that run left. -/
theorem foldlM_SetAt_append (ws1 ws2 : List (Int × ℚ)) (a b : List ℚ)
    (h : ws1.foldlM (fun a w => SetAt a w.1 w.2) a = Except.ok b) :
    (ws1 ++ ws2).foldlM (fun a w => SetAt a w.1 w.2) a
      = ws2.foldlM (fun a w => SetAt a w.1 w.2) b := by
  rw [List.foldlM_append, h]
  rfl

/-- `SetNum` with a size that is not negative succeeds and returns an array of that length. -/
theorem SetNum_ok (WeightData : List ℚ) (Size : Int) (hS : 0 ≤ Size) :
    ∃ Data, SetNum WeightData Size = Except.ok Data ∧ Data.length = Size.toNat := by
  refine ⟨(WeightData ++ List.replicate Size.toNat 0).take Size.toNat, ?_, ?_⟩
  · unfold SetNum
    rw [if_neg (by omega)]
  · rw [List.length_take, List.length_append, List.length_replicate]
    omega

/-- When the four coordinates lie in `[0, Size]`, in any order, `CalculateArrayWeight` succeeds,
the table has `Size` entries, and entry `i` holds the value of the last loop that stored to it:
the fifth loop for `X3 ≤ i`, else the fourth for `X2 ≤ i`, else the third for `X1 ≤ i`, else the
second for `X0 ≤ i`, else the first. -/
theorem CalculateArrayWeight_entries (t : FTileWeight1D) (WeightData : List ℚ) (Size : Int)
    (h0 : 0 ≤ t.X0 ∧ t.X0 ≤ Size) (h1 : 0 ≤ t.X1 ∧ t.X1 ≤ Size)
    (h2 : 0 ≤ t.X2 ∧ t.X2 ≤ Size) (h3 : 0 ≤ t.X3 ∧ t.X3 ≤ Size) :
    ∃ Data, CalculateArrayWeight t WeightData Size = Except.ok Data
      ∧ Data.length = Size.toNat
      ∧ ∀ i : Nat, (i : Int) < Size → Data[i]? = some (
          if t.X3 ≤ (i : Int) then 0
          else if t.X2 ≤ (i : Int) then
            Clamp (1 - (((((i : Int) : ℚ)) + 1 / 2) - (t.X2 : ℚ)) * ScaleRhs t) 0 1
          else if t.X1 ≤ (i : Int) then 1
          else if t.X0 ≤ (i : Int) then
            Clamp ((((((i : Int) : ℚ)) + 1 / 2) - (t.X0 : ℚ)) * ScaleLhs t) 0 1
          else 0) := by
  have hS : 0 ≤ Size := le_trans h0.1 h0.2
  obtain ⟨d0, hd0, hl0⟩ := SetNum_ok WeightData Size hS
  have hSz : ∀ d : List ℚ, d.length = Size.toNat → ((d.length : Nat) : Int) = Size := by
    intro d hd
    rw [hd]
    exact Int.toNat_of_nonneg hS
  obtain ⟨d1, hd1, hl1, hg1⟩ := foldlM_SetAt_ForLoopWrites (fun _ => 0) 0 t.X0 d0 (le_refl 0)
    (by rw [hSz d0 hl0]; exact h0.2)
  have hl1 : d1.length = Size.toNat := hl1.trans hl0
  obtain ⟨d2, hd2, hl2, hg2⟩ := foldlM_SetAt_ForLoopWrites
    (fun Index => Clamp ((((Index : ℚ) + 1 / 2) - (t.X0 : ℚ)) * ScaleLhs t) 0 1) t.X0 t.X1 d1 h0.1
    (by rw [hSz d1 hl1]; exact h1.2)
  have hl2 : d2.length = Size.toNat := hl2.trans hl1
  obtain ⟨d3, hd3, hl3, hg3⟩ := foldlM_SetAt_ForLoopWrites (fun _ => 1) t.X1 t.X2 d2 h1.1
    (by rw [hSz d2 hl2]; exact h2.2)
  have hl3 : d3.length = Size.toNat := hl3.trans hl2
  obtain ⟨d4, hd4, hl4, hg4⟩ := foldlM_SetAt_ForLoopWrites
    (fun Index => Clamp (1 - (((Index : ℚ) + 1 / 2) - (t.X2 : ℚ)) * ScaleRhs t) 0 1) t.X2 t.X3 d3
    h2.1 (by rw [hSz d3 hl3]; exact h3.2)
  have hl4 : d4.length = Size.toNat := hl4.trans hl3
  obtain ⟨d5, hd5, hl5, hg5⟩ := foldlM_SetAt_ForLoopWrites (fun _ => 0) t.X3 Size d4 h3.1
    (by rw [hSz d4 hl4])
  have hl5 : d5.length = Size.toNat := hl5.trans hl4
  refine ⟨d5, ?_, hl5, fun i hi => ?_⟩
  · have e2 := (foldlM_SetAt_append _ _ d0 d1 hd1).trans hd2
    have e3 := (foldlM_SetAt_append _ _ d0 d2 e2).trans hd3
    have e4 := (foldlM_SetAt_append _ _ d0 d3 e3).trans hd4
    have e5 := (foldlM_SetAt_append _ _ d0 d4 e4).trans hd5
    unfold CalculateArrayWeight CalculateArrayWeightWrites
    rw [hd0]
    exact e5
  · have hiN : i < Size.toNat := by omega
    rw [hg5 i (by rw [hl4]; exact hiN), hg4 i (by rw [hl3]; exact hiN),
      hg3 i (by rw [hl2]; exact hiN), hg2 i (by rw [hl1]; exact hiN),
      hg1 i (by rw [hl0]; exact hiN)]
    by_cases c3 : t.X3 ≤ (i : Int)
    · rw [if_pos ⟨c3, hi⟩, if_pos c3]
    · rw [if_neg (fun h => c3 h.1), if_neg c3]
      by_cases c2 : t.X2 ≤ (i : Int)
      · rw [if_pos ⟨c2, by omega⟩, if_pos c2]
      · rw [if_neg (fun h => c2 h.1), if_neg c2]
        by_cases c1 : t.X1 ≤ (i : Int)
        · rw [if_pos ⟨c1, by omega⟩, if_pos c1]
        · rw [if_neg (fun h => c1 h.1), if_neg c1]
          by_cases c0 : t.X0 ≤ (i : Int)
          · rw [if_pos ⟨c0, by omega⟩, if_pos c0]
          · rw [if_neg (fun h => c0 h.1), if_neg c0, if_pos ⟨by omega, by omega⟩]

/-- The stores of one loop are exactly the pairs `(i, F i)` with `Lo ≤ i < Hi`. -/
theorem mem_ForLoopWrites (Lo Hi : Int) (F : Int → ℚ) (w : Int × ℚ) :
    w ∈ ForLoopWrites Lo Hi F ↔ Lo ≤ w.1 ∧ w.1 < Hi ∧ w.2 = F w.1 := by
  unfold ForLoopWrites
  rw [List.mem_map]
  constructor
  · rintro ⟨n, hn, rfl⟩
    rw [List.mem_range] at hn
    refine ⟨by simp only []; omega, by simp only []; omega, rfl⟩
  · rintro ⟨h1, h2, h3⟩
    refine ⟨(w.1 - Lo).toNat, ?_, ?_⟩
    · rw [List.mem_range]
      omega
    · have e : Lo + ((w.1 - Lo).toNat : Int) = w.1 := by omega
      rw [e, ← h3]

/-- Every index of `[Lo, Hi)` is stored to by the loop over `[Lo, Hi)`. -/
theorem index_mem_ForLoopWrites (Lo Hi : Int) (F : Int → ℚ) (i : Int) (h1 : Lo ≤ i)
    (h2 : i < Hi) : (i, F i) ∈ ForLoopWrites Lo Hi F :=
  (mem_ForLoopWrites Lo Hi F (i, F i)).mpr ⟨h1, h2, rfl⟩

/-- A run of stores one of which misses the array fails: every store that succeeds keeps the
length, so the store that misses is refused when its turn comes, if not an earlier one. -/
theorem foldlM_SetAt_error_of_mem (ws : List (Int × ℚ)) :
    ∀ a : List ℚ, (∃ w ∈ ws, ¬ (0 ≤ w.1 ∧ w.1 < (a.length : Int))) →
      ∃ e, ws.foldlM (fun a w => SetAt a w.1 w.2) a = Except.error e := by
  induction ws with
  | nil =>
    intro a h
    obtain ⟨w, hw, -⟩ := h
    exact absurd hw (List.not_mem_nil w)
  | cons v rest ih =>
    intro a h
    rw [List.foldlM_cons]
    by_cases hv : 0 ≤ v.1 ∧ v.1 < (a.length : Int)
    · have hset : SetAt a v.1 v.2 = Except.ok (a.set v.1.toNat v.2) := by
        unfold SetAt
        rw [if_pos hv]
      rw [hset]
      obtain ⟨w, hw, hbad⟩ := h
      have hrest : w ∈ rest := by
        rcases List.mem_cons.mp hw with e | hr
        · rw [e] at hbad
          exact absurd hv hbad
        · exact hr
      obtain ⟨e, he⟩ := ih (a.set v.1.toNat v.2) ⟨w, hrest, by rw [List.length_set]; exact hbad⟩
      exact ⟨e, he⟩
    · have hset : SetAt a v.1 v.2 = Except.error PipelineError.InvariantViolation := by
        unfold SetAt
        rw [if_neg hv]
      rw [hset]
      exact ⟨_, rfl⟩

/-- If one of the stores of the five loops goes to an index outside `[0, Size)`,
`CalculateArrayWeight` fails. -/
theorem CalculateArrayWeight_error_of_store_outside (t : FTileWeight1D) (WeightData : List ℚ)
    (Size : Int) (hS : 0 ≤ Size)
    (h : ∃ w ∈ CalculateArrayWeightWrites t Size, ¬ (0 ≤ w.1 ∧ w.1 < Size)) :
    ∃ e, CalculateArrayWeight t WeightData Size = Except.error e := by
  obtain ⟨d0, hd0, hl0⟩ := SetNum_ok WeightData Size hS
  have hlen : ((d0.length : Nat) : Int) = Size := by
    rw [hl0]
    exact Int.toNat_of_nonneg hS
  obtain ⟨w, hw, hbad⟩ := h
  obtain ⟨e, he⟩ := foldlM_SetAt_error_of_mem (CalculateArrayWeightWrites t Size) d0
    ⟨w, hw, by rw [hlen]; exact hbad⟩
  refine ⟨e, ?_⟩
  unfold CalculateArrayWeight
  rw [hd0]
  exact he

/-! ## Facts about the built tile -/

/-- On inputs that pass the checks and for which `3 * PadLeft` and the size fit in `int32`, the
built tile has `0 ≤ X0 ≤ X1 ≤ X2 ≤ Size`, `X1 ≤ X3 ≤ Size`, and `X2 ≤ X3` exactly when
`PadRight / 2 ≤ 3 * PadLeft / 2`. -/
theorem InitHelper_bounds (PadLeft SizeCenter PadRight : Int)
    (hL : 0 ≤ PadLeft) (hC : 0 < SizeCenter) (hR : 0 ≤ PadRight)
    (hP3 : 3 * PadLeft ≤ 2147483647)
    (hSz : PadLeft + SizeCenter + PadRight ≤ 2147483647) :
    ∃ t, InitHelper PadLeft SizeCenter PadRight = Except.ok t
      ∧ 0 ≤ t.X0 ∧ t.X0 ≤ t.X1 ∧ t.X1 ≤ t.X2 ∧ t.X2 ≤ PadLeft + SizeCenter + PadRight
      ∧ t.X1 ≤ t.X3 ∧ t.X3 ≤ PadLeft + SizeCenter + PadRight
      ∧ (t.X2 ≤ t.X3 ↔ PadRight / 2 ≤ 3 * PadLeft / 2) := by
  refine ⟨_, InitHelper_eq_of_valid PadLeft SizeCenter PadRight hL hC hR hP3 hSz, ?_⟩
  simp only []
  refine ⟨by omega, by omega, by omega, by omega, by omega, by omega, ?_⟩
  constructor <;> intro h <;> omega

/-- Where `3 * PadLeft` leaves the `int32` range the coordinates wrap: `InitHelper(1000000000,
1, 0)` passes its checks and returns a tile whose `X1` is negative and whose `X2` lies above
`X3` and above the size `1000000001`. -/
theorem InitHelper_wraps_at_large_pad :
    InitHelper 1000000000 1 0 = Except.ok
      { X0 := 500000000, X1 := -647483648, X2 := 1647483649, X3 := 1000000001 } := by
  rfl

/-- For the wrapped tile of `InitHelper(1000000000, 1, 0)` the third loop of
`CalculateArrayWeight` starts at `X1 = -647483648`: its first store goes to a negative index. -/
theorem store_below_zero_at_large_pad :
    ∃ w ∈ CalculateArrayWeightWrites
        { X0 := 500000000, X1 := -647483648, X2 := 1647483649, X3 := 1000000001 }
        (1000000000 + 1 + 0),
      ¬ (0 ≤ w.1 ∧ w.1 < 1000000000 + 1 + 0) := by
  refine ⟨(-647483648, 1), ?_, by decide⟩
  unfold CalculateArrayWeightWrites
  exact List.mem_append_left _ (List.mem_append_left _ (List.mem_append_right _
    (index_mem_ForLoopWrites _ _ (fun _ => 1) (-647483648) (by decide) (by decide))))

/-- For the wrapped tile of `InitHelper(1000000000, 1, 0)` and the size `1000000001`,
`CalculateArrayWeight` fails: a store misses the array. -/
theorem CalculateArrayWeight_fails_at_large_pad (WeightData : List ℚ) :
    ∃ e, CalculateArrayWeight
        { X0 := 500000000, X1 := -647483648, X2 := 1647483649, X3 := 1000000001 }
        WeightData (1000000000 + 1 + 0) = Except.error e :=
  CalculateArrayWeight_error_of_store_outside _ WeightData (1000000000 + 1 + 0) (by decide)
    store_below_zero_at_large_pad

/-- A value already in `[0, 1]` passes through `Clamp` unchanged. -/
theorem Clamp_of_mem_unit (x : ℚ) (h0 : 0 ≤ x) (h1 : x ≤ 1) : Clamp x 0 1 = x := by
  unfold Clamp
  rw [if_neg (not_lt.mpr h0)]
  by_cases h : x < 1
  · rw [if_pos h]
  · rw [if_neg h]
    exact le_antisymm (not_lt.mp h) h1

/-- On the up-ramp the value stored by the second loop is the centre sample
`(i + 1/2 - X0) / (X1 - X0)`; the clamp leaves it alone. -/
theorem up_ramp_store (t : FTileWeight1D) (i : Int) (h0 : t.X0 ≤ i) (h1 : i < t.X1) :
    Clamp ((((i : ℚ) + 1 / 2) - (t.X0 : ℚ)) * ScaleLhs t) 0 1
      = ((i : ℚ) + 1 / 2 - (t.X0 : ℚ)) / ((t.X1 : ℚ) - (t.X0 : ℚ)) := by
  have hne : t.X0 ≠ t.X1 := by omega
  have hd : (0 : ℚ) < (t.X1 : ℚ) - (t.X0 : ℚ) := by
    have : t.X0 < t.X1 := by omega
    have : (t.X0 : ℚ) < (t.X1 : ℚ) := by exact_mod_cast this
    linarith
  have hi0 : (t.X0 : ℚ) ≤ (i : ℚ) := by exact_mod_cast h0
  have hi1 : (i : ℚ) + 1 ≤ (t.X1 : ℚ) := by exact_mod_cast (by omega : i + 1 ≤ t.X1)
  have hval : (((i : ℚ) + 1 / 2) - (t.X0 : ℚ)) * ScaleLhs t
      = ((i : ℚ) + 1 / 2 - (t.X0 : ℚ)) / ((t.X1 : ℚ) - (t.X0 : ℚ)) := by
    unfold ScaleLhs
    rw [if_pos hne]
    push_cast
    rw [mul_one_div]
  rw [hval]
  apply Clamp_of_mem_unit
  · exact div_nonneg (by linarith) hd.le
  · rw [div_le_one hd]
    linarith

/-- On the down-ramp the value stored by the fourth loop is the centre sample
`1 - (i + 1/2 - X2) / (X3 - X2)`; the clamp leaves it alone. -/
theorem down_ramp_store (t : FTileWeight1D) (i : Int) (h2 : t.X2 ≤ i) (h3 : i < t.X3) :
    Clamp (1 - (((i : ℚ) + 1 / 2) - (t.X2 : ℚ)) * ScaleRhs t) 0 1
      = 1 - ((i : ℚ) + 1 / 2 - (t.X2 : ℚ)) / ((t.X3 : ℚ) - (t.X2 : ℚ)) := by
  have hne : t.X2 ≠ t.X3 := by omega
  have hd : (0 : ℚ) < (t.X3 : ℚ) - (t.X2 : ℚ) := by
    have : t.X2 < t.X3 := by omega
    have : (t.X2 : ℚ) < (t.X3 : ℚ) := by exact_mod_cast this
    linarith
  have hi0 : (t.X2 : ℚ) ≤ (i : ℚ) := by exact_mod_cast h2
  have hi1 : (i : ℚ) + 1 ≤ (t.X3 : ℚ) := by exact_mod_cast (by omega : i + 1 ≤ t.X3)
  have hval : 1 - (((i : ℚ) + 1 / 2) - (t.X2 : ℚ)) * ScaleRhs t
      = 1 - ((i : ℚ) + 1 / 2 - (t.X2 : ℚ)) / ((t.X3 : ℚ) - (t.X2 : ℚ)) := by
    unfold ScaleRhs
    rw [if_pos hne]
    push_cast
    rw [mul_one_div]
  rw [hval]
  have hq0 : 0 ≤ ((i : ℚ) + 1 / 2 - (t.X2 : ℚ)) / ((t.X3 : ℚ) - (t.X2 : ℚ)) :=
    div_nonneg (by linarith) hd.le
  have hq1 : ((i : ℚ) + 1 / 2 - (t.X2 : ℚ)) / ((t.X3 : ℚ) - (t.X2 : ℚ)) ≤ 1 := by
    rw [div_le_one hd]
    linarith
  apply Clamp_of_mem_unit <;> linarith

/-! ## Tile order -/

/-- C1, evaluated where the code departs from it: `InitHelper(0, 1, 2)` passes its three checks
and returns the tile `(0, 0, 3, 2)`, in which `X2 = 3` lies above `X3 = 2`. `X2` is computed from
`PadLeft`, not from `PadRight`, so the order `X2 ≤ X3` is lost as soon as
`PadRight / 2 > 3 * PadLeft / 2`. -/
theorem InitHelper_X2_above_X3 :
    ∃ t, InitHelper 0 1 2 = Except.ok t
      ∧ t = { X0 := 0, X1 := 0, X2 := 3, X3 := 2 }
      ∧ ¬ (t.X0 ≤ t.X1 ∧ t.X1 ≤ t.X2 ∧ t.X2 ≤ t.X3) :=
  ⟨{ X0 := 0, X1 := 0, X2 := 3, X3 := 2 }, by rfl, rfl, by decide⟩

/-! ## The weight table against `CalculateWeight` -/

/-- C2 as stated fails, in two ways. On a ramp: for the tile built from `(2, 4, 2)`, which is
`(1, 3, 5, 7)`, and the table of size `8`, entry `1` is `1/4` while `CalculateWeight` at pixel
`1` is `0`. Beyond the `int32` range: `InitHelper(1000000000, 1, 0)` passes its checks,
`3 * PadLeft` wraps, and on the tile it returns `CalculateArrayWeight` with size `1000000001`
fails, so there is no table. -/
theorem CalculateArrayWeight_differs_on_ramp :
    (∃ t Data, InitHelper 2 4 2 = Except.ok t
      ∧ CalculateArrayWeight t [] (2 + 4 + 2) = Except.ok Data
      ∧ Data[1]? = some (1 / 4)
      ∧ CalculateWeight t 1 = 0
      ∧ Data[1]? ≠ some (CalculateWeight t 1))
    ∧ (∃ t e, InitHelper 1000000000 1 0 = Except.ok t
      ∧ CalculateArrayWeight t [] (1000000000 + 1 + 0) = Except.error e) := by
  refine ⟨?_, ?_⟩
  swap
  · obtain ⟨e, he⟩ := CalculateArrayWeight_fails_at_large_pad []
    exact ⟨_, e, InitHelper_wraps_at_large_pad, he⟩
  have ht : InitHelper 2 4 2 = Except.ok { X0 := 1, X1 := 3, X2 := 5, X3 := 7 } := by rfl
  obtain ⟨Data, hD, -, hget⟩ := CalculateArrayWeight_entries
    { X0 := 1, X1 := 3, X2 := 5, X3 := 7 } [] (2 + 4 + 2)
    (by decide) (by decide) (by decide) (by decide)
  have h1 := hget 1 (by decide)
  have hv : Data[1]? = some (1 / 4) := by
    rw [h1]
    norm_num [Clamp, ScaleLhs]
  have hw : CalculateWeight { X0 := 1, X1 := 3, X2 := 5, X3 := 7 } 1 = 0 := by
    norm_num [CalculateWeight]
  refine ⟨_, Data, ht, hD, hv, hw, ?_⟩
  rw [hv, hw]
  norm_num

/-- C2, amended: for every tile built from valid inputs for which `3 * PadLeft` and
`PadLeft + SizeCenter + PadRight` fit in `int32`, and the table of size
`PadLeft + SizeCenter + PadRight`, the call succeeds and, at every index `i` of the table with
`i < X3` or `X2 ≤ i`, entry `i` is `CalculateWeight(i)` outside the two ramps,
`CalculateWeight(i) + 1 / (2 (X1 - X0))` on the up-ramp `X0 ≤ i < X1` and
`CalculateWeight(i) - 1 / (2 (X3 - X2))` on the down-ramp `X2 ≤ i < X3`: the table samples the
centre `i + 1/2` of the pixel. -/
theorem CalculateArrayWeight_eq_CalculateWeight_shifted (PadLeft SizeCenter PadRight : Int)
    (hL : 0 ≤ PadLeft) (hC : 0 < SizeCenter) (hR : 0 ≤ PadRight)
    (hP3 : 3 * PadLeft ≤ 2147483647)
    (hSz : PadLeft + SizeCenter + PadRight ≤ 2147483647)
    (WeightData : List ℚ) :
    ∃ t Data, InitHelper PadLeft SizeCenter PadRight = Except.ok t
      ∧ CalculateArrayWeight t WeightData (PadLeft + SizeCenter + PadRight) = Except.ok Data
      ∧ ∀ i : Nat, (i : Int) < PadLeft + SizeCenter + PadRight →
          ((i : Int) < t.X3 ∨ t.X2 ≤ (i : Int)) →
          Data[i]? = some (
            if t.X0 ≤ (i : Int) ∧ (i : Int) < t.X1 then
              CalculateWeight t i + 1 / (2 * ((t.X1 : ℚ) - (t.X0 : ℚ)))
            else if t.X2 ≤ (i : Int) ∧ (i : Int) < t.X3 then
              CalculateWeight t i - 1 / (2 * ((t.X3 : ℚ) - (t.X2 : ℚ)))
            else CalculateWeight t i) := by
  obtain ⟨t, ht, b0, b01, b12, b2S, b13, b3S, -⟩ :=
    InitHelper_bounds PadLeft SizeCenter PadRight hL hC hR hP3 hSz
  obtain ⟨Data, hD, -, hget⟩ := CalculateArrayWeight_entries t WeightData
    (PadLeft + SizeCenter + PadRight) ⟨b0, by omega⟩ ⟨by omega, by omega⟩ ⟨by omega, b2S⟩
    ⟨by omega, b3S⟩
  refine ⟨t, Data, ht, hD, fun i hi hreg => ?_⟩
  rw [hget i hi]
  congr 1
  by_cases c3 : t.X3 ≤ (i : Int)
  · have c2 : t.X2 ≤ (i : Int) := by omega
    rw [if_pos c3, if_neg (by omega), if_neg (by omega)]
    unfold CalculateWeight
    rw [if_neg (by omega), if_neg (by omega), if_neg (by omega), if_neg (by omega)]
  · rw [if_neg c3]
    by_cases c2 : t.X2 ≤ (i : Int)
    · rw [if_pos c2, if_neg (by omega), if_pos ⟨c2, by omega⟩,
        down_ramp_store t i c2 (by omega)]
      unfold CalculateWeight
      rw [if_neg (by omega), if_neg (by omega), if_neg (by omega), if_pos (by omega)]
      have hd : (t.X3 : ℚ) - (t.X2 : ℚ) ≠ 0 := by
        have : t.X2 < t.X3 := by omega
        have : (t.X2 : ℚ) < (t.X3 : ℚ) := by exact_mod_cast this
        linarith
      push_cast
      field_simp
      ring
    · rw [if_neg c2]
      by_cases c1 : t.X1 ≤ (i : Int)
      · rw [if_pos c1, if_neg (by omega), if_neg (by omega)]
        unfold CalculateWeight
        rw [if_neg (by omega), if_neg (by omega), if_pos (by omega)]
      · rw [if_neg c1]
        by_cases c0 : t.X0 ≤ (i : Int)
        · rw [if_pos c0, if_pos ⟨c0, by omega⟩, up_ramp_store t i c0 (by omega)]
          unfold CalculateWeight
          rw [if_neg (by omega), if_pos (by omega)]
          have hd : (t.X1 : ℚ) - (t.X0 : ℚ) ≠ 0 := by
            have : t.X0 < t.X1 := by omega
            have : (t.X0 : ℚ) < (t.X1 : ℚ) := by exact_mod_cast this
            linarith
          push_cast
          field_simp
          ring
        · rw [if_neg c0, if_neg (by omega), if_neg (by omega)]
          unfold CalculateWeight
          rw [if_pos (by omega)]

/-! ## Range of `CalculateWeight` -/

/-- C10: for every tile built from valid inputs (the build succeeds) and every integer pixel,
negative ones and ones at or beyond the tile size included, `CalculateWeight` returns a value
`w` with `0 ≤ w ≤ 1`. -/
theorem CalculateWeight_in_unit_interval (PadLeft SizeCenter PadRight : Int)
    (hL : 0 ≤ PadLeft) (hC : 0 < SizeCenter) (hR : 0 ≤ PadRight) :
    ∃ t, InitHelper PadLeft SizeCenter PadRight = Except.ok t
      ∧ ∀ Pixel : Int, 0 ≤ CalculateWeight t Pixel ∧ CalculateWeight t Pixel ≤ 1 :=
  (InitHelper_ok_of_valid PadLeft SizeCenter PadRight hL hC hR).elim
    fun t ht => ⟨t, ht, fun Pixel => CalculateWeight_mem_unit t Pixel⟩

/-- C10 at the inputs `(2, 4, 2)`. -/
theorem CalculateWeight_in_unit_interval_witness :
    ∃ t, InitHelper 2 4 2 = Except.ok t
      ∧ ∀ Pixel : Int, 0 ≤ CalculateWeight t Pixel ∧ CalculateWeight t Pixel ≤ 1 :=
  CalculateWeight_in_unit_interval 2 4 2 (by decide) (by decide) (by decide)

/-- C2 (amended) at the inputs `(2, 4, 2)` and an empty incoming array. -/
theorem CalculateArrayWeight_eq_CalculateWeight_shifted_witness :
    ∃ t Data, InitHelper 2 4 2 = Except.ok t
      ∧ CalculateArrayWeight t [] (2 + 4 + 2) = Except.ok Data
      ∧ ∀ i : Nat, (i : Int) < 2 + 4 + 2 →
          ((i : Int) < t.X3 ∨ t.X2 ≤ (i : Int)) →
          Data[i]? = some (
            if t.X0 ≤ (i : Int) ∧ (i : Int) < t.X1 then
              CalculateWeight t i + 1 / (2 * ((t.X1 : ℚ) - (t.X0 : ℚ)))
            else if t.X2 ≤ (i : Int) ∧ (i : Int) < t.X3 then
              CalculateWeight t i - 1 / (2 * ((t.X3 : ℚ) - (t.X2 : ℚ)))
            else CalculateWeight t i) :=
  CalculateArrayWeight_eq_CalculateWeight_shifted 2 4 2 (by decide) (by decide) (by decide)
    (by decide) (by decide) []

/-! ## Two adjacent tiles -/

/-- Two copies of a tile set `S` pixels apart, whose ramps have one width and whose down-ramp
starts where the up-ramp of the next copy starts, give weights that sum to `1` from the start of
the first plateau to the end of the second. -/
theorem aligned_tiles_sum (t : FTileWeight1D) (S P g : Int)
    (h01 : t.X0 ≤ t.X1)
    (h2 : t.X2 = S + t.X0) (h3 : t.X3 = S + t.X1)
    (hg1 : t.X1 - P ≤ g) (hg2 : g < (S - P) + t.X2) :
    TileWeightAtGlobal t (0 * S - P) g + TileWeightAtGlobal t (1 * S - P) g = 1 := by
  unfold TileWeightAtGlobal CalculateWeight
  by_cases ca : g - (0 * S - P) < t.X2
  · rw [if_neg (by omega), if_neg (by omega), if_pos ca, if_pos (by omega)]
    norm_num
  · by_cases cb : g - (0 * S - P) < t.X3
    · rw [if_neg (by omega), if_neg (by omega), if_neg ca, if_pos cb, if_neg (by omega),
        if_pos (by omega)]
      have e1 : t.X3 - t.X2 = t.X1 - t.X0 := by omega
      have e2 : (t.X3 - (g - (0 * S - P))) + (g - (1 * S - P) - t.X0) = t.X1 - t.X0 := by omega
      have hd : ((t.X1 - t.X0 : Int) : ℚ) ≠ 0 := by
        have : t.X1 - t.X0 ≠ 0 := by omega
        exact_mod_cast this
      rw [e1, ← add_div, ← Int.cast_add, e2, div_self hd]
    · rw [if_neg (by omega), if_neg (by omega), if_neg ca, if_neg cb, if_neg (by omega),
        if_neg (by omega), if_pos (by omega)]
      norm_num

/-- C3 as stated fails, in two ways. For an odd pad: with `P = 1`, `S = 4` the clamps are
inactive, the tile is `(0, 1, 5, 6)`, global pixel `4` lies between the start of tile 0's plateau
and the end of tile 1's, and there the two weights are `1` and `1`, which sum to `2`. Beyond the
`int32` range: with the even pad `P = S = 715827884` the clamps are inactive, `3 * P` and the
size wrap, the tile is `(357913942, -1073741822, 1073741826, 1789569710)`, and at global pixel
`400000000` the two weights sum to `1 + 336870913 / 357913942`. -/
theorem adjacent_tiles_sum_two_for_odd_pad :
    (∃ t, InitHelper 1 4 1 = Except.ok t
      ∧ (3 * 1 / 2 : Int) ≤ 1 + 4 / 2
      ∧ (0 * 4 - 1) + t.X1 ≤ 4 ∧ (4 : Int) < (1 * 4 - 1) + t.X2
      ∧ TileWeightAtGlobal t (0 * 4 - 1) 4 + TileWeightAtGlobal t (1 * 4 - 1) 4 = 2)
    ∧ (∃ t, InitHelper 715827884 715827884 715827884 = Except.ok t
      ∧ t = { X0 := 357913942, X1 := -1073741822, X2 := 1073741826, X3 := 1789569710 }
      ∧ (715827884 : Int) % 2 = 0
      ∧ (3 * 715827884 / 2 : Int) ≤ 715827884 + 715827884 / 2
      ∧ (0 * 715827884 - 715827884) + t.X1 ≤ 400000000
      ∧ (400000000 : Int) < (1 * 715827884 - 715827884) + t.X2
      ∧ TileWeightAtGlobal t (0 * 715827884 - 715827884) 400000000
          + TileWeightAtGlobal t (1 * 715827884 - 715827884) 400000000
          = 1 + 336870913 / 357913942
      ∧ TileWeightAtGlobal t (0 * 715827884 - 715827884) 400000000
          + TileWeightAtGlobal t (1 * 715827884 - 715827884) 400000000 ≠ 1) := by
  refine ⟨⟨{ X0 := 0, X1 := 1, X2 := 5, X3 := 6 }, by rfl, by decide, by decide, by decide, ?_⟩,
    ⟨{ X0 := 357913942, X1 := -1073741822, X2 := 1073741826, X3 := 1789569710 }, by rfl, rfl,
      by decide, by decide, by decide, by decide, ?_, ?_⟩⟩
  · norm_num [TileWeightAtGlobal, CalculateWeight]
  · norm_num [TileWeightAtGlobal, CalculateWeight]
  · norm_num [TileWeightAtGlobal, CalculateWeight]

/-- C3, amended to even pads within the `int32` range: for every even `P ≥ 0` and `S > 0` with
inactive midpoint clamps (`3P/2 ≤ P + S/2`) for which `3 * P` and the tile size `P + S + P` fit
in `int32`, the tile built from `(P, S, P)` exists and, with tile `k` putting its local
pixel `p` at global pixel `k * S - P + p` (`k = 0, 1`), at every global pixel `g` from tile 0's
`X1` up to but excluding tile 1's `X2` the two weights sum to exactly `1`. -/
theorem adjacent_tiles_sum_one (P S : Int) (hP : 0 ≤ P) (hS : 0 < S) (hEven : P % 2 = 0)
    (hClamp : 3 * P / 2 ≤ P + S / 2)
    (hP3 : 3 * P ≤ 2147483647) (hSz : P + S + P ≤ 2147483647) :
    ∃ t, InitHelper P S P = Except.ok t
      ∧ ∀ g : Int, (0 * S - P) + t.X1 ≤ g → g < (1 * S - P) + t.X2 →
          TileWeightAtGlobal t (0 * S - P) g + TileWeightAtGlobal t (1 * S - P) g = 1 := by
  refine ⟨_, InitHelper_eq_of_valid P S P hP hS hP hP3 hSz, fun g hg1 hg2 => ?_⟩
  simp only [] at hg1 hg2
  apply aligned_tiles_sum _ S P g
  · simp only []; omega
  · simp only []; omega
  · simp only []; omega
  · simp only []; omega
  · simp only []; omega

/-- C3 (amended) at `P = 2`, `S = 4`. -/
theorem adjacent_tiles_sum_one_witness :
    ∃ t, InitHelper 2 4 2 = Except.ok t
      ∧ ∀ g : Int, (0 * 4 - 2) + t.X1 ≤ g → g < (1 * 4 - 2) + t.X2 →
          TileWeightAtGlobal t (0 * 4 - 2) g + TileWeightAtGlobal t (1 * 4 - 2) g = 1 :=
  adjacent_tiles_sum_one 2 4 (by decide) (by decide) (by decide) (by decide) (by decide)
    (by decide)

/-! ## Frame count estimate -/

/-- The per-frame tick count is the floor of tick resolution over frame rate. -/
theorem OneFrameInTicks_eq_floor (c : FMoviePipelineCameraCutInfo) :
    OneFrameInTicks c
      = Int.floor (c.CachedTickResolution.AsRational / c.CachedFrameRate.AsRational) := by
  unfold OneFrameInTicks TransformTimeFloor
  rw [Int.cast_one, one_mul]

/-- With a per-frame tick count that is not zero the estimate is the ceiling of the quotient. -/
theorem GetOutputFrameCountEstimate_of_ne_zero (k : Int) (c : FMoviePipelineCameraCutInfo)
    (ht : OneFrameInTicks c ≠ 0) :
    GetOutputFrameCountEstimate k c
      = Except.ok (Int.ceil ((c.TotalOutputRangeLocal.Size : ℚ) / (OneFrameInTicks c : ℚ))) := by
  unfold GetOutputFrameCountEstimate FDouble.quotient
  simp only [if_neg ht, CeilToInt]

/-- C4: let `t` be the floor of tick resolution over frame rate and assume `t ≥ 1`. Then
`GetOutputFrameCountEstimate` returns the ceiling of `length / t`; on a range of `N * t` ticks
that is `N`, on a range of `N * t + 1` ticks it is `N + 1`, and on an empty range it is `0`. -/
theorem GetOutputFrameCountEstimate_ceiling (k : Int) (c : FMoviePipelineCameraCutInfo)
    (ht : 1 ≤ OneFrameInTicks c) :
    OneFrameInTicks c
        = Int.floor (c.CachedTickResolution.AsRational / c.CachedFrameRate.AsRational)
      ∧ GetOutputFrameCountEstimate k c
        = Except.ok (Int.ceil ((c.TotalOutputRangeLocal.Size : ℚ) / (OneFrameInTicks c : ℚ)))
      ∧ (∀ N : Nat, c.TotalOutputRangeLocal.Size = (N : Int) * OneFrameInTicks c →
          GetOutputFrameCountEstimate k c = Except.ok (N : Int))
      ∧ (∀ N : Nat, c.TotalOutputRangeLocal.Size = (N : Int) * OneFrameInTicks c + 1 →
          GetOutputFrameCountEstimate k c = Except.ok ((N : Int) + 1))
      ∧ (c.TotalOutputRangeLocal.Size = 0 → GetOutputFrameCountEstimate k c = Except.ok 0) := by
  have hne : OneFrameInTicks c ≠ 0 := by omega
  have hq : (1 : ℚ) ≤ (OneFrameInTicks c : ℚ) := by exact_mod_cast ht
  have hq0 : (OneFrameInTicks c : ℚ) ≠ 0 := by linarith
  have hest := GetOutputFrameCountEstimate_of_ne_zero k c hne
  refine ⟨OneFrameInTicks_eq_floor c, hest, fun N hN => ?_, fun N hN => ?_, fun h0 => ?_⟩
  · rw [hest, hN]
    congr 1
    push_cast
    rw [mul_div_assoc, div_self hq0, mul_one]
    exact Int.ceil_intCast (N : Int)
  · rw [hest, hN]
    congr 1
    rw [Int.ceil_eq_iff]
    push_cast
    have e : ((N : ℚ) * (OneFrameInTicks c : ℚ) + 1) / (OneFrameInTicks c : ℚ)
        = (N : ℚ) + 1 / (OneFrameInTicks c : ℚ) := by
      field_simp
    rw [e]
    have hpos : (0 : ℚ) < 1 / (OneFrameInTicks c : ℚ) := by
      apply div_pos one_pos
      linarith
    have hle : 1 / (OneFrameInTicks c : ℚ) ≤ 1 := by
      rw [div_le_one (by linarith)]
      exact hq
    constructor <;> linarith
  · rw [hest, h0]
    simp

/-- C4 at the sample cut: one frame is 1000 ticks, the range is 3000 ticks long, and the
estimate is the ceiling of `3000 / 1000`. -/
theorem GetOutputFrameCountEstimate_ceiling_witness :
    1 ≤ OneFrameInTicks SampleCut
      ∧ GetOutputFrameCountEstimate 0 SampleCut = Except.ok
          (Int.ceil ((SampleCut.TotalOutputRangeLocal.Size : ℚ) / (OneFrameInTicks SampleCut : ℚ))) :=
  have h : 1 ≤ OneFrameInTicks SampleCut := by
    norm_num [OneFrameInTicks, SampleCut, TransformTimeFloor, FFrameRate.AsRational]
  ⟨h, (GetOutputFrameCountEstimate_ceiling 0 SampleCut h).2.1⟩

/-- C5, evaluated where the code departs from it: for the sample cut whose frame rate, 48000
per second, exceeds its tick resolution, 24000 per second, the per-frame tick count is zero.
The code has no check on it: the quotient of the ten ticks of the range by zero is non-finite,
that quotient is converted to `int32`, and the call returns the converted value as a frame
count (here with `1073741824` for the converted value). It does not fail with a
`ConfigurationError`. -/
theorem GetOutputFrameCountEstimate_returns_at_zero_ticks :
    OneFrameInTicks SampleFastCut = 0
      ∧ FDouble.quotient SampleFastCut.TotalOutputRangeLocal.Size (OneFrameInTicks SampleFastCut)
          = FDouble.nonFinite
      ∧ GetOutputFrameCountEstimate 1073741824 SampleFastCut = Except.ok 1073741824
      ∧ GetOutputFrameCountEstimate 1073741824 SampleFastCut
          ≠ Except.error PipelineError.ConfigurationError := by
  have h0 : OneFrameInTicks SampleFastCut = 0 := by
    norm_num [OneFrameInTicks, SampleFastCut, SampleCut, TransformTimeFloor,
      FFrameRate.AsRational]
  have hq : FDouble.quotient SampleFastCut.TotalOutputRangeLocal.Size
      (OneFrameInTicks SampleFastCut) = FDouble.nonFinite := by
    unfold FDouble.quotient
    rw [if_pos h0]
  have h1 : GetOutputFrameCountEstimate 1073741824 SampleFastCut
      = Except.ok 1073741824 := by
    unfold GetOutputFrameCountEstimate
    simp only [hq, CeilToInt]
  refine ⟨h0, hq, h1, ?_⟩
  rw [h1]
  exact fun h => Except.noConfusion h

/-! ## Shot state -/

/-- C6: for a countdown `w ≥ 0` and flag `e`, `SetNextStateAfter` follows the transition table.
Called for `Uninitialized` it sets the state to `WarmingUp` if `w > 0`, to `MotionBlur` if
`w = 0` and `e`, to `Rendering` if `w = 0` and not `e`; called for `WarmingUp` it sets
`MotionBlur` if `w = 0` and `e`, `Rendering` if `w = 0` and not `e`, and leaves the state as it
was if `w > 0`. -/
theorem SetNextStateAfter_table (c : FMoviePipelineCameraCutInfo)
    (hw : 0 ≤ c.NumEngineWarmUpFramesRemaining) :
    (SetNextStateAfter c .Uninitialized).State
        = (if c.NumEngineWarmUpFramesRemaining > 0 then EMovieRenderShotState.WarmingUp
           else if c.bEmulateFirstFrameMotionBlur = true then EMovieRenderShotState.MotionBlur
           else EMovieRenderShotState.Rendering)
      ∧ (SetNextStateAfter c .WarmingUp).State
        = (if c.NumEngineWarmUpFramesRemaining > 0 then c.State
           else if c.bEmulateFirstFrameMotionBlur = true then EMovieRenderShotState.MotionBlur
           else EMovieRenderShotState.Rendering) := by
  constructor
  · unfold SetNextStateAfter
    simp only []
    split_ifs <;> rfl
  · unfold SetNextStateAfter
    simp only []
    split_ifs <;> first | rfl | omega

/-- C6 at the three listed inputs: `(Uninitialized, 0, true)` gives `MotionBlur`,
`(Uninitialized, 3, true)` gives `WarmingUp`, `(WarmingUp, 0, false)` gives `Rendering`. -/
theorem SetNextStateAfter_table_witness :
    (SetNextStateAfter SampleCut .Uninitialized).State = EMovieRenderShotState.MotionBlur
      ∧ (SetNextStateAfter { SampleCut with NumEngineWarmUpFramesRemaining := 3 }
          .Uninitialized).State = EMovieRenderShotState.WarmingUp
      ∧ (SetNextStateAfter
          { SampleCut with bEmulateFirstFrameMotionBlur := false, State := .WarmingUp }
          .WarmingUp).State = EMovieRenderShotState.Rendering :=
  ⟨(SetNextStateAfter_table SampleCut (by decide)).1,
   (SetNextStateAfter_table { SampleCut with NumEngineWarmUpFramesRemaining := 3 }
      (by decide)).1,
   (SetNextStateAfter_table
      { SampleCut with bEmulateFirstFrameMotionBlur := false, State := .WarmingUp }
      (by decide)).2⟩

/-! ## Frame tokens -/

/-- The four frame-number entries of the filename arguments after the call: the first two are
overwritten by the relative renderings when the flag is set. Each number shown is the `int32`
sum of a frame number and the offset. -/
theorem GetFilenameFormatArguments_frame_tokens (s : FMoviePipelineFrameOutputState)
    (a : FMoviePipelineFormatArgs) (w o : Int) (flag : Bool) :
    (GetFilenameFormatArguments s a w o flag).FilenameArguments "frame_number"
        = some (GetPaddingFormatString w
            (if flag = true then WrapInt32 (s.OutputFrameNumber + o)
             else WrapInt32 (s.SourceFrameNumber + o)))
      ∧ (GetFilenameFormatArguments s a w o flag).FilenameArguments "frame_number_shot"
        = some (GetPaddingFormatString w
            (if flag = true then WrapInt32 (s.ShotOutputFrameNumber + o)
             else WrapInt32 (s.CurrentShotSourceFrameNumber + o)))
      ∧ (GetFilenameFormatArguments s a w o flag).FilenameArguments "frame_number_rel"
        = some (GetPaddingFormatString w (WrapInt32 (s.OutputFrameNumber + o)))
      ∧ (GetFilenameFormatArguments s a w o flag).FilenameArguments "frame_number_shot_rel"
        = some (GetPaddingFormatString w (WrapInt32 (s.ShotOutputFrameNumber + o))) := by
  cases flag <;> simp +decide [GetFilenameFormatArguments, TMap.Add]

/-- For a pad width that is not negative `GetPaddingFormatString` produces the token the
interface describes. -/
theorem GetPaddingFormatString_eq_PaddedToken (w n : Int) (hw : 0 ≤ w) :
    GetPaddingFormatString w n = PaddedToken w n := by
  unfold GetPaddingFormatString PrintfZeroPadded PaddedToken
  by_cases hn : n < 0
  · have h1 : (0 : Int) ≤ w + 1 := by omega
    have h2 : ¬ (0 : Int) ≤ n := by omega
    simp only [if_pos hn, if_pos h1, if_neg h2, List.leftpad, List.length_singleton]
    congr 1
    have e : (w + 1).toNat - (1 + (Nat.toDigits 10 n.natAbs).length)
        = max w.toNat (Nat.toDigits 10 n.natAbs).length - (Nat.toDigits 10 n.natAbs).length := by
      omega
    rw [e]
    rfl
  · have h2 : (0 : Int) ≤ n := by omega
    simp only [if_neg hn, if_pos hw, if_pos h2, List.leftpad, List.length_nil, List.nil_append]
    congr 1
    have e : w.toNat - (0 + (Nat.toDigits 10 n.natAbs).length)
        = max w.toNat (Nat.toDigits 10 n.natAbs).length - (Nat.toDigits 10 n.natAbs).length := by
      omega
    rw [e]

/-- C7 as stated fails: with pad width `4` and offset `-1` on the sample frame, whose sequence
frame number is `5`, the `frame_number` token is `0004`, rendered with pad width `4`; with pad
width `4 + 1` the number `5 + (-1)` renders as `00004`. -/
theorem negative_offset_keeps_pad_width :
    (-1 : Int) < 0
      ∧ (GetFilenameFormatArguments SampleFrame EmptyFormatArgs 4 (-1) false).FilenameArguments
          "frame_number" = some "0004"
      ∧ PrintfZeroPadded (4 + 1) (SampleFrame.SourceFrameNumber + (-1)) = "00004"
      ∧ (GetFilenameFormatArguments SampleFrame EmptyFormatArgs 4 (-1) false).FilenameArguments
          "frame_number"
          ≠ some (PrintfZeroPadded (4 + 1) (SampleFrame.SourceFrameNumber + (-1))) := by
  refine ⟨by decide, by rfl, by rfl, ?_⟩
  decide

/-- C7, amended: for every frame output state and pad width `w ≥ 0`, each of the four
frame-number tokens is rendered with pad width `w + 1` whenever the number it shows (the
`int32` sum of its frame number and the offset) is negative, and with pad width `w` when that
number is not negative; the sign of the offset alone decides nothing. -/
theorem frame_tokens_pad_width (s : FMoviePipelineFrameOutputState)
    (a : FMoviePipelineFormatArgs) (w o : Int) (flag : Bool) (_hw : 0 ≤ w) :
    (GetFilenameFormatArguments s a w o flag).FilenameArguments "frame_number"
        = some (if (if flag = true then WrapInt32 (s.OutputFrameNumber + o)
                    else WrapInt32 (s.SourceFrameNumber + o)) < 0
            then PrintfZeroPadded (w + 1)
              (if flag = true then WrapInt32 (s.OutputFrameNumber + o)
               else WrapInt32 (s.SourceFrameNumber + o))
            else PrintfZeroPadded w
              (if flag = true then WrapInt32 (s.OutputFrameNumber + o)
               else WrapInt32 (s.SourceFrameNumber + o)))
      ∧ (GetFilenameFormatArguments s a w o flag).FilenameArguments "frame_number_shot"
        = some (if (if flag = true then WrapInt32 (s.ShotOutputFrameNumber + o)
                    else WrapInt32 (s.CurrentShotSourceFrameNumber + o)) < 0
            then PrintfZeroPadded (w + 1)
              (if flag = true then WrapInt32 (s.ShotOutputFrameNumber + o)
               else WrapInt32 (s.CurrentShotSourceFrameNumber + o))
            else PrintfZeroPadded w
              (if flag = true then WrapInt32 (s.ShotOutputFrameNumber + o)
               else WrapInt32 (s.CurrentShotSourceFrameNumber + o)))
      ∧ (GetFilenameFormatArguments s a w o flag).FilenameArguments "frame_number_rel"
        = some (if WrapInt32 (s.OutputFrameNumber + o) < 0
            then PrintfZeroPadded (w + 1) (WrapInt32 (s.OutputFrameNumber + o))
            else PrintfZeroPadded w (WrapInt32 (s.OutputFrameNumber + o)))
      ∧ (GetFilenameFormatArguments s a w o flag).FilenameArguments "frame_number_shot_rel"
        = some (if WrapInt32 (s.ShotOutputFrameNumber + o) < 0
            then PrintfZeroPadded (w + 1) (WrapInt32 (s.ShotOutputFrameNumber + o))
            else PrintfZeroPadded w (WrapInt32 (s.ShotOutputFrameNumber + o)))
      ∧ (∀ f : Int, -2147483648 ≤ f + o → f + o ≤ 2147483647 → WrapInt32 (f + o) = f + o) := by
  have key : ∀ n : Int, GetPaddingFormatString w n
      = if n < 0 then PrintfZeroPadded (w + 1) n else PrintfZeroPadded w n := by
    intro n
    unfold GetPaddingFormatString
    split_ifs <;> rfl
  obtain ⟨h1, h2, h3, h4⟩ := GetFilenameFormatArguments_frame_tokens s a w o flag
  rw [h1, h2, h3, h4, key, key, key, key]
  exact ⟨rfl, rfl, rfl, rfl, fun f h1 h2 => WrapInt32_of_range _ h1 h2⟩

/-- C7 (amended) at the sample frame with pad width `4` and offset `-6`: the sequence frame
number `5` shows as `-1`, rendered with pad width `5`. -/
theorem frame_tokens_pad_width_witness :
    (GetFilenameFormatArguments SampleFrame EmptyFormatArgs 4 (-6) false).FilenameArguments
        "frame_number" = some "-0001" :=
  (frame_tokens_pad_width SampleFrame EmptyFormatArgs 4 (-6) false (by decide)).1.trans (by rfl)

/-- C8 as stated fails where the sum leaves the `int32` range: with pad width `4`, frame number
`2147483647` and offset `1` the sum `f + o` is `2147483648`, which is not negative and whose
token would be `2147483648`; the `int32` sum wraps to `-2147483648` and the `frame_number`
token is `-2147483648`. -/
theorem frame_token_wraps_at_int32_max :
    (GetFilenameFormatArguments SampleFrameLast EmptyFormatArgs 4 1 false).FilenameArguments
        "frame_number" = some "-2147483648"
      ∧ (0 : Int) ≤ SampleFrameLast.SourceFrameNumber + 1
      ∧ PaddedToken 4 (SampleFrameLast.SourceFrameNumber + 1) = "2147483648"
      ∧ (GetFilenameFormatArguments SampleFrameLast EmptyFormatArgs 4 1 false).FilenameArguments
          "frame_number" ≠ some (PaddedToken 4 (SampleFrameLast.SourceFrameNumber + 1)) := by
  refine ⟨by rfl, by decide, by rfl, ?_⟩
  decide

/-- C8, amended: for every frame output state, offset, flag and pad width `w ≥ 0`, each of the
four frame tokens is the token the interface describes for the number `n` it shows, where `n`
is the `int32` sum of its frame number and the offset (`n = f + o` whenever `f + o` fits in
`int32`): for `n ≥ 0` the decimal digits of `n` left-padded with `'0'` to
`max(w, number of digits)` characters, for `n < 0` a minus sign followed by the digits of `|n|`
left-padded with `'0'` to `max(w, number of digits)` digits. With the flag set the first two
tokens show the relative frame numbers. -/
theorem frame_tokens_eq_PaddedToken (s : FMoviePipelineFrameOutputState)
    (a : FMoviePipelineFormatArgs) (w o : Int) (flag : Bool) (hw : 0 ≤ w) :
    (GetFilenameFormatArguments s a w o flag).FilenameArguments "frame_number"
        = some (PaddedToken w
            (if flag = true then WrapInt32 (s.OutputFrameNumber + o)
             else WrapInt32 (s.SourceFrameNumber + o)))
      ∧ (GetFilenameFormatArguments s a w o flag).FilenameArguments "frame_number_shot"
        = some (PaddedToken w
            (if flag = true then WrapInt32 (s.ShotOutputFrameNumber + o)
             else WrapInt32 (s.CurrentShotSourceFrameNumber + o)))
      ∧ (GetFilenameFormatArguments s a w o flag).FilenameArguments "frame_number_rel"
        = some (PaddedToken w (WrapInt32 (s.OutputFrameNumber + o)))
      ∧ (GetFilenameFormatArguments s a w o flag).FilenameArguments "frame_number_shot_rel"
        = some (PaddedToken w (WrapInt32 (s.ShotOutputFrameNumber + o)))
      ∧ (∀ f : Int, -2147483648 ≤ f + o → f + o ≤ 2147483647 → WrapInt32 (f + o) = f + o) := by
  obtain ⟨h1, h2, h3, h4⟩ := GetFilenameFormatArguments_frame_tokens s a w o flag
  rw [h1, h2, h3, h4, GetPaddingFormatString_eq_PaddedToken _ _ hw,
    GetPaddingFormatString_eq_PaddedToken _ _ hw, GetPaddingFormatString_eq_PaddedToken _ _ hw,
    GetPaddingFormatString_eq_PaddedToken _ _ hw]
  exact ⟨rfl, rfl, rfl, rfl, fun f h1 h2 => WrapInt32_of_range _ h1 h2⟩

/-- C8 (amended) at pad width `4`, frame number `0` and offset `-1`: the token is the five
characters `-0001`. -/
theorem frame_tokens_eq_PaddedToken_witness :
    (GetFilenameFormatArguments SampleFrameZero EmptyFormatArgs 4 (-1) false).FilenameArguments
        "frame_number" = some "-0001"
      ∧ "-0001".length = 5 :=
  ⟨(frame_tokens_eq_PaddedToken SampleFrameZero EmptyFormatArgs 4 (-1) false
      (by decide)).1.trans (by rfl), by rfl⟩

/-- On inputs that pass the checks and for which `3 * PadLeft` and the size fit in `int32`, the
built tile has `X1 < X3`, and `CalculateWeight` is `1` at `X1`. -/
theorem InitHelper_weight_at_X1 (PadLeft SizeCenter PadRight : Int)
    (hL : 0 ≤ PadLeft) (hC : 0 < SizeCenter) (hR : 0 ≤ PadRight)
    (hP3 : 3 * PadLeft ≤ 2147483647)
    (hSz : PadLeft + SizeCenter + PadRight ≤ 2147483647) :
    ∃ t, InitHelper PadLeft SizeCenter PadRight = Except.ok t
      ∧ t.X1 < t.X3 ∧ CalculateWeight t t.X1 = 1 := by
  obtain ⟨t, ht, -, b01, b12, -, -, -, -⟩ :=
    InitHelper_bounds PadLeft SizeCenter PadRight hL hC hR hP3 hSz
  have ht2 := InitHelper_eq_of_valid PadLeft SizeCenter PadRight hL hC hR hP3 hSz
  rw [ht] at ht2
  have hX : t = _ := Except.ok.inj ht2
  have h13 : t.X1 < t.X3 := by
    rw [hX]
    simp only []
    omega
  have h2or : t.X1 < t.X2 ∨ t.X2 < t.X3 := by omega
  refine ⟨t, ht, h13, ?_⟩
  unfold CalculateWeight
  by_cases h12 : t.X1 < t.X2
  · rw [if_neg (by omega), if_neg (by omega), if_pos h12]
  · have h23 : t.X2 < t.X3 := by omega
    have e : t.X1 = t.X2 := by omega
    have hd : ((t.X3 - t.X2 : Int) : ℚ) ≠ 0 := by
      have : t.X3 - t.X2 ≠ 0 := by omega
      exact_mod_cast this
    rw [if_neg (by omega), if_neg (by omega), if_neg h12, if_pos h13, e, div_self hd]

/-- For any four coordinates, `CalculateWeight` does not decrease along the up-ramp
`[X0, X1)`. -/
theorem CalculateWeight_mono_up (t : FTileWeight1D) (p q : Int)
    (h0 : t.X0 ≤ p) (hpq : p ≤ q) (h1 : q < t.X1) :
    CalculateWeight t p ≤ CalculateWeight t q := by
  unfold CalculateWeight
  rw [if_neg (by omega), if_pos (by omega), if_neg (by omega), if_pos h1]
  have hd : (0 : ℚ) < ((t.X1 - t.X0 : Int) : ℚ) := by
    exact_mod_cast (by omega : 0 < t.X1 - t.X0)
  have hn : ((p - t.X0 : Int) : ℚ) ≤ ((q - t.X0 : Int) : ℚ) := by
    exact_mod_cast (by omega : p - t.X0 ≤ q - t.X0)
  exact div_le_div_of_nonneg_right hn hd.le

/-- For coordinates with `X0 ≤ X1 ≤ X2`, `CalculateWeight` does not increase along the
down-ramp `[X2, X3)`. -/
theorem CalculateWeight_anti_down (t : FTileWeight1D) (p q : Int)
    (h01 : t.X0 ≤ t.X1) (h12 : t.X1 ≤ t.X2)
    (h2 : t.X2 ≤ p) (hpq : p ≤ q) (h3 : q < t.X3) :
    CalculateWeight t q ≤ CalculateWeight t p := by
  unfold CalculateWeight
  rw [if_neg (by omega), if_neg (by omega), if_neg (by omega), if_pos h3,
    if_neg (by omega), if_neg (by omega), if_neg (by omega), if_pos (by omega)]
  have hd : (0 : ℚ) < ((t.X3 - t.X2 : Int) : ℚ) := by
    exact_mod_cast (by omega : 0 < t.X3 - t.X2)
  have hn : ((t.X3 - q : Int) : ℚ) ≤ ((t.X3 - p : Int) : ℚ) := by
    exact_mod_cast (by omega : t.X3 - q ≤ t.X3 - p)
  exact div_le_div_of_nonneg_right hn hd.le

/-- C11 as stated fails, in two ways. At the closed end `X2`: the tile built from `(0, 1, 0)`
is `(0, 0, 1, 1)`, pixel `1` lies in the closed interval `[X1, X2]`, and `CalculateWeight` there
is `0`, not `1`. Beyond the `int32` range: `InitHelper(1000000000, 1, 0)` passes its checks,
`3 * PadLeft` wraps, the tile has `X2 = 1647483649` above `X3 = 1000000001`, and at pixel
`1000000002`, which lies outside `[X0, X3]`, `CalculateWeight` is `1`, not `0`. -/
theorem CalculateWeight_zero_at_X2 :
    (∃ t, InitHelper 0 1 0 = Except.ok t
      ∧ t = { X0 := 0, X1 := 0, X2 := 1, X3 := 1 }
      ∧ t.X1 ≤ 1 ∧ (1 : Int) ≤ t.X2
      ∧ CalculateWeight t 1 = 0
      ∧ CalculateWeight t 1 ≠ 1)
    ∧ (∃ t, InitHelper 1000000000 1 0 = Except.ok t
      ∧ (0 / 2 : Int) ≤ 3 * 1000000000 / 2
      ∧ t.X3 < t.X2
      ∧ t.X3 < 1000000002
      ∧ CalculateWeight t 1000000002 = 1
      ∧ CalculateWeight t 1000000002 ≠ 0) := by
  refine ⟨⟨{ X0 := 0, X1 := 0, X2 := 1, X3 := 1 }, by rfl, rfl, by decide, by decide, ?_, ?_⟩,
    ⟨_, InitHelper_wraps_at_large_pad, by decide, by decide, by decide, ?_, ?_⟩⟩
  · norm_num [CalculateWeight]
  · norm_num [CalculateWeight]
  · norm_num [CalculateWeight]
  · norm_num [CalculateWeight]

/-- C11, amended: for every tile built from valid inputs for which `3 * PadLeft` and
`PadLeft + SizeCenter + PadRight` fit in `int32` and whose coordinates come out in order
(`PadRight / 2 ≤ 3 * PadLeft / 2`, which gives `X2 ≤ X3`), `CalculateWeight` over integer pixels
is non-decreasing on the closed interval `[X0, X1]`, equal to `1` at every pixel of `[X1, X2]`
that lies below `X3`, non-increasing on the closed interval `[X2, X3]`, and `0` at every pixel
outside `[X0, X3]`. -/
theorem CalculateWeight_trapezoid (PadLeft SizeCenter PadRight : Int)
    (hL : 0 ≤ PadLeft) (hC : 0 < SizeCenter) (hR : 0 ≤ PadRight)
    (hOrd : PadRight / 2 ≤ 3 * PadLeft / 2)
    (hP3 : 3 * PadLeft ≤ 2147483647)
    (hSz : PadLeft + SizeCenter + PadRight ≤ 2147483647) :
    ∃ t, InitHelper PadLeft SizeCenter PadRight = Except.ok t
      ∧ t.X2 ≤ t.X3
      ∧ (∀ p q : Int, t.X0 ≤ p → p ≤ q → q ≤ t.X1 →
          CalculateWeight t p ≤ CalculateWeight t q)
      ∧ (∀ p : Int, t.X1 ≤ p → p ≤ t.X2 → p < t.X3 → CalculateWeight t p = 1)
      ∧ (∀ p q : Int, t.X2 ≤ p → p ≤ q → q ≤ t.X3 →
          CalculateWeight t q ≤ CalculateWeight t p)
      ∧ (∀ p : Int, p < t.X0 ∨ t.X3 < p → CalculateWeight t p = 0) := by
  obtain ⟨t, ht, -, b01, b12, -, -, -, b23⟩ :=
    InitHelper_bounds PadLeft SizeCenter PadRight hL hC hR hP3 hSz
  obtain ⟨t2, ht2, -, hw1⟩ := InitHelper_weight_at_X1 PadLeft SizeCenter PadRight hL hC hR hP3 hSz
  rw [ht] at ht2
  have et : t2 = t := (Except.ok.inj ht2).symm
  rw [et] at hw1
  have h23 : t.X2 ≤ t.X3 := b23.mpr hOrd
  refine ⟨t, ht, h23, ?_, ?_, ?_, ?_⟩
  · intro p q h0 hpq h1
    by_cases hq : q < t.X1
    · exact CalculateWeight_mono_up t p q h0 hpq hq
    · have eq : q = t.X1 := by omega
      rw [eq, hw1]
      exact (CalculateWeight_mem_unit t p).2
  · intro p h1 h2 h3
    unfold CalculateWeight
    by_cases hp : p < t.X2
    · rw [if_neg (by omega), if_neg (by omega), if_pos hp]
    · have hd : ((t.X3 - t.X2 : Int) : ℚ) ≠ 0 := by
        have : t.X3 - t.X2 ≠ 0 := by omega
        exact_mod_cast this
      have e : p = t.X2 := by omega
      rw [if_neg (by omega), if_neg (by omega), if_neg hp, if_pos h3, e, div_self hd]
  · intro p q h2 hpq h3
    by_cases hq : q < t.X3
    · exact CalculateWeight_anti_down t p q b01 b12 h2 hpq hq
    · have hz : CalculateWeight t q = 0 := by
        unfold CalculateWeight
        rw [if_neg (by omega), if_neg (by omega), if_neg (by omega), if_neg hq]
      rw [hz]
      exact (CalculateWeight_mem_unit t p).1
  · intro p hp
    unfold CalculateWeight
    rcases hp with hp | hp
    · rw [if_pos hp]
    · rw [if_neg (by omega), if_neg (by omega), if_neg (by omega), if_neg (by omega)]

/-- C11 (amended) at the inputs `(2, 4, 2)`. -/
theorem CalculateWeight_trapezoid_witness :
    ∃ t, InitHelper 2 4 2 = Except.ok t
      ∧ t.X2 ≤ t.X3
      ∧ (∀ p q : Int, t.X0 ≤ p → p ≤ q → q ≤ t.X1 →
          CalculateWeight t p ≤ CalculateWeight t q)
      ∧ (∀ p : Int, t.X1 ≤ p → p ≤ t.X2 → p < t.X3 → CalculateWeight t p = 1)
      ∧ (∀ p q : Int, t.X2 ≤ p → p ≤ q → q ≤ t.X3 →
          CalculateWeight t q ≤ CalculateWeight t p)
      ∧ (∀ p : Int, p < t.X0 ∨ t.X3 < p → CalculateWeight t p = 0) :=
  CalculateWeight_trapezoid 2 4 2 (by decide) (by decide) (by decide) (by decide) (by decide)
    (by decide)

/-! ## The checks of `InitHelper` -/

/-- C12: `InitHelper` fails if and only if `SizeCenter ≤ 0` or `PadLeft < 0` or `PadRight < 0`;
on every other triple of integers it returns a tile. -/
theorem InitHelper_fails_iff (PadLeft SizeCenter PadRight : Int) :
    ((∃ e, InitHelper PadLeft SizeCenter PadRight = Except.error e)
        ↔ (SizeCenter ≤ 0 ∨ PadLeft < 0 ∨ PadRight < 0))
      ∧ (¬ (SizeCenter ≤ 0 ∨ PadLeft < 0 ∨ PadRight < 0) →
          ∃ t, InitHelper PadLeft SizeCenter PadRight = Except.ok t) := by
  by_cases hL : 0 ≤ PadLeft
  · by_cases hC : 0 < SizeCenter
    · by_cases hR : 0 ≤ PadRight
      · obtain ⟨t, hok⟩ := InitHelper_ok_of_valid PadLeft SizeCenter PadRight hL hC hR
        refine ⟨⟨?_, ?_⟩, fun _ => ⟨t, hok⟩⟩
        · rintro ⟨e, he⟩
          rw [hok] at he
          exact Except.noConfusion he
        · intro h
          omega
      · have herr : InitHelper PadLeft SizeCenter PadRight
            = Except.error PipelineError.ConfigurationError := by
          simp only [InitHelper, check, ge_iff_le, gt_iff_lt, hL, hC, hR, decide_True,
            decide_False, if_true]
          rfl
        exact ⟨⟨fun _ => by omega, fun _ => ⟨_, herr⟩⟩, fun h => absurd (by omega) h⟩
    · have herr : InitHelper PadLeft SizeCenter PadRight
          = Except.error PipelineError.ConfigurationError := by
        simp only [InitHelper, check, ge_iff_le, gt_iff_lt, hL, hC, decide_True,
          decide_False, if_true]
        rfl
      exact ⟨⟨fun _ => by omega, fun _ => ⟨_, herr⟩⟩, fun h => absurd (by omega) h⟩
  · have herr : InitHelper PadLeft SizeCenter PadRight
        = Except.error PipelineError.ConfigurationError := by
      simp only [InitHelper, check, ge_iff_le, hL, decide_False]
      rfl
    exact ⟨⟨fun _ => by omega, fun _ => ⟨_, herr⟩⟩, fun h => absurd (by omega) h⟩

/-! ## Work metrics -/

/-- With a per-frame tick count that is not zero `CalculateWorkMetrics` returns the record with
its three metrics set: the estimate, the wrapped `int32` product of the four counts, and the
countdown. -/
theorem CalculateWorkMetrics_eq (k : Int) (c : FMoviePipelineCameraCutInfo)
    (ht : OneFrameInTicks c ≠ 0) :
    CalculateWorkMetrics k c = Except.ok
      { c with
        WorkMetrics :=
          { TotalOutputFrameCount :=
              Int.ceil ((c.TotalOutputRangeLocal.Size : ℚ) / (OneFrameInTicks c : ℚ))
            TotalSubSampleCount :=
              WrapInt32 (WrapInt32 (WrapInt32 (c.NumSpatialSamples * c.NumTemporalSamples)
                * c.NumTilesX) * c.NumTilesY)
            TotalEngineWarmUpFrameCount := c.NumEngineWarmUpFramesRemaining } } := by
  unfold CalculateWorkMetrics
  rw [GetOutputFrameCountEstimate_of_ne_zero k c ht]
  rfl

/-- C13 as stated fails where the product leaves the `int32` range: for the sample cut with
`65536` spatial and `65536` temporal samples on `1 × 1` tiles, whose per-frame tick count is
positive, the product of the four counts is `4294967296` and `CalculateWorkMetrics` stores
`0`. -/
theorem CalculateWorkMetrics_product_wraps :
    ∃ r, CalculateWorkMetrics 0 SampleWideCut = Except.ok r
      ∧ 0 < OneFrameInTicks SampleWideCut
      ∧ r.WorkMetrics.TotalSubSampleCount = 0
      ∧ SampleWideCut.NumSpatialSamples * SampleWideCut.NumTemporalSamples
          * SampleWideCut.NumTilesX * SampleWideCut.NumTilesY = 4294967296
      ∧ r.WorkMetrics.TotalSubSampleCount
          ≠ SampleWideCut.NumSpatialSamples * SampleWideCut.NumTemporalSamples
            * SampleWideCut.NumTilesX * SampleWideCut.NumTilesY := by
  have h : 0 < OneFrameInTicks SampleWideCut := by
    norm_num [OneFrameInTicks, SampleWideCut, SampleCut, TransformTimeFloor,
      FFrameRate.AsRational]
  refine ⟨_, CalculateWorkMetrics_eq 0 SampleWideCut (by omega), h, by decide, by decide,
    by decide⟩

/-- C13, amended: for every camera cut with a positive per-frame tick count,
`CalculateWorkMetrics` returns, and in the record it returns `TotalOutputFrameCount` is the
value of `GetOutputFrameCountEstimate` on the record (the ceiling of length over per-frame
ticks), `TotalSubSampleCount` is the `int32` product
`NumSpatialSamples * NumTemporalSamples * NumTiles.X * NumTiles.Y`, each product wrapped, which
is the plain product whenever that and its partial products fit in `int32`,
`TotalEngineWarmUpFrameCount` is the current `NumEngineWarmUpFramesRemaining`, and no other
member has changed. -/
theorem CalculateWorkMetrics_fields (k : Int) (c : FMoviePipelineCameraCutInfo)
    (ht : 0 < OneFrameInTicks c) :
    ∃ r n, CalculateWorkMetrics k c = Except.ok r
      ∧ GetOutputFrameCountEstimate k c = Except.ok n
      ∧ n = Int.ceil ((c.TotalOutputRangeLocal.Size : ℚ) / (OneFrameInTicks c : ℚ))
      ∧ r.WorkMetrics.TotalOutputFrameCount = n
      ∧ r.WorkMetrics.TotalSubSampleCount
          = WrapInt32 (WrapInt32 (WrapInt32 (c.NumSpatialSamples * c.NumTemporalSamples)
              * c.NumTilesX) * c.NumTilesY)
      ∧ (-2147483648 ≤ c.NumSpatialSamples * c.NumTemporalSamples
          ∧ c.NumSpatialSamples * c.NumTemporalSamples ≤ 2147483647
          ∧ -2147483648 ≤ c.NumSpatialSamples * c.NumTemporalSamples * c.NumTilesX
          ∧ c.NumSpatialSamples * c.NumTemporalSamples * c.NumTilesX ≤ 2147483647
          ∧ -2147483648
              ≤ c.NumSpatialSamples * c.NumTemporalSamples * c.NumTilesX * c.NumTilesY
          ∧ c.NumSpatialSamples * c.NumTemporalSamples * c.NumTilesX * c.NumTilesY
              ≤ 2147483647 →
          r.WorkMetrics.TotalSubSampleCount
            = c.NumSpatialSamples * c.NumTemporalSamples * c.NumTilesX * c.NumTilesY)
      ∧ r.WorkMetrics.TotalEngineWarmUpFrameCount = c.NumEngineWarmUpFramesRemaining
      ∧ r = { c with WorkMetrics := r.WorkMetrics } := by
  have hne : OneFrameInTicks c ≠ 0 := by omega
  refine ⟨_, _, CalculateWorkMetrics_eq k c hne,
    GetOutputFrameCountEstimate_of_ne_zero k c hne, rfl, rfl, rfl, ?_, rfl, rfl⟩
  rintro ⟨a1, a2, b1, b2, c1, c2⟩
  show WrapInt32 (WrapInt32 (WrapInt32 (c.NumSpatialSamples * c.NumTemporalSamples)
    * c.NumTilesX) * c.NumTilesY) = _
  rw [WrapInt32_of_range _ a1 a2, WrapInt32_of_range _ b1 b2, WrapInt32_of_range _ c1 c2]

/-- C13 (amended) at the sample cut: one frame is 1000 ticks, and the four counts are `1`. -/
theorem CalculateWorkMetrics_fields_witness :
    0 < OneFrameInTicks SampleCut
      ∧ ∃ r, CalculateWorkMetrics 0 SampleCut = Except.ok r
        ∧ r.WorkMetrics.TotalSubSampleCount = 1
        ∧ r.WorkMetrics.TotalEngineWarmUpFrameCount = 0 :=
  have h : 0 < OneFrameInTicks SampleCut := by
    norm_num [OneFrameInTicks, SampleCut, TransformTimeFloor, FFrameRate.AsRational]
  have hw := CalculateWorkMetrics_fields 0 SampleCut h
  ⟨h, hw.elim fun r hr => hr.elim fun _ hn =>
    ⟨r, hn.1, hn.2.2.2.2.1.trans (by decide), hn.2.2.2.2.2.2.1.trans (by decide)⟩⟩

/-! ## Repeated and converging transitions -/

/-- C14: the transition is idempotent. For every record, whatever its state, countdown and
flag, calling `SetNextStateAfter` for the state the first call produced, on the record the first
call produced (same countdown, same flag), changes nothing. -/
theorem SetNextStateAfter_idempotent (c : FMoviePipelineCameraCutInfo) :
    SetNextStateAfter (SetNextStateAfter c c.State) (SetNextStateAfter c c.State).State
      = SetNextStateAfter c c.State := by
  obtain ⟨fr, tr, rg, ns, nt, tx, ty, w, e, st, wm⟩ := c
  cases st <;> simp only [SetNextStateAfter]
  · by_cases hw : w > 0
    · have hw0 : ¬ w = 0 := by omega
      simp only [hw, if_true, hw0, if_false]
    · cases e <;> simp [hw]
  · by_cases hw0 : w = 0
    · cases e <;> simp [hw0]
    · simp only [hw0, if_false]

/-- C19: once the countdown is zero, `SetNextStateAfter` called for `Uninitialized` and called
for `WarmingUp` produce the same record, whose state is `MotionBlur` when the flag is set and
`Rendering` otherwise. -/
theorem SetNextStateAfter_converges (c : FMoviePipelineCameraCutInfo)
    (hw : c.NumEngineWarmUpFramesRemaining = 0) :
    SetNextStateAfter c .Uninitialized = SetNextStateAfter c .WarmingUp
      ∧ (SetNextStateAfter c .Uninitialized).State
          = (if c.bEmulateFirstFrameMotionBlur = true then EMovieRenderShotState.MotionBlur
             else EMovieRenderShotState.Rendering)
      ∧ (SetNextStateAfter c .WarmingUp).State
          = (if c.bEmulateFirstFrameMotionBlur = true then EMovieRenderShotState.MotionBlur
             else EMovieRenderShotState.Rendering) := by
  have hn : ¬ c.NumEngineWarmUpFramesRemaining > 0 := by omega
  unfold SetNextStateAfter
  simp only [hw, if_true, gt_iff_lt, lt_self_iff_false, if_false]
  cases c.bEmulateFirstFrameMotionBlur <;> simp

/-- C19 at the sample cut, whose countdown is zero and whose flag is set: both calls give
`MotionBlur`. -/
theorem SetNextStateAfter_converges_witness :
    (SetNextStateAfter SampleCut .Uninitialized).State = EMovieRenderShotState.MotionBlur
      ∧ (SetNextStateAfter SampleCut .WarmingUp).State = EMovieRenderShotState.MotionBlur :=
  ⟨(SetNextStateAfter_converges SampleCut (by decide)).2.1,
   (SetNextStateAfter_converges SampleCut (by decide)).2.2⟩

/-! ## Names and metadata -/

/-- The two name entries of the filename arguments after the call. -/
theorem GetFilenameFormatArguments_names (s : FMoviePipelineFrameOutputState)
    (a : FMoviePipelineFormatArgs) (w o : Int) (flag : Bool) :
    (GetFilenameFormatArguments s a w o flag).FilenameArguments "camera_name"
        = some (if s.CameraName.length > 0 then s.CameraName else "NoCamera")
      ∧ (GetFilenameFormatArguments s a w o flag).FilenameArguments "shot_name"
        = some (if s.ShotName.length > 0 then s.ShotName else "NoShot") := by
  cases flag <;> simp +decide [GetFilenameFormatArguments, TMap.Add]

/-- The six entries of the file metadata after the call. -/
theorem GetFilenameFormatArguments_metadata (s : FMoviePipelineFrameOutputState)
    (a : FMoviePipelineFormatArgs) (w o : Int) (flag : Bool) :
    (GetFilenameFormatArguments s a w o flag).FileMetadata "unreal/sequenceFrameNumber"
        = some (GetPaddingFormatString w
            (if flag = true then WrapInt32 (s.OutputFrameNumber + o) else WrapInt32 (s.SourceFrameNumber + o)))
      ∧ (GetFilenameFormatArguments s a w o flag).FileMetadata "unreal/shotFrameNumber"
        = some (GetPaddingFormatString w
            (if flag = true then WrapInt32 (s.ShotOutputFrameNumber + o)
             else WrapInt32 (s.CurrentShotSourceFrameNumber + o)))
      ∧ (GetFilenameFormatArguments s a w o flag).FileMetadata
          "unreal/sequenceFrameNumberRelative"
        = some (GetPaddingFormatString w (WrapInt32 (s.OutputFrameNumber + o)))
      ∧ (GetFilenameFormatArguments s a w o flag).FileMetadata "unreal/shotFrameNumberRelative"
        = some (GetPaddingFormatString w (WrapInt32 (s.ShotOutputFrameNumber + o)))
      ∧ (GetFilenameFormatArguments s a w o flag).FileMetadata "unreal/cameraName"
        = some (if s.CameraName.length > 0 then s.CameraName else "NoCamera")
      ∧ (GetFilenameFormatArguments s a w o flag).FileMetadata "unreal/shotName"
        = some (if s.ShotName.length > 0 then s.ShotName else "NoShot") := by
  cases flag <;> simp +decide [GetFilenameFormatArguments, TMap.Add]

/-- A string has positive length exactly when it is not the empty string. -/
theorem String_length_pos_iff (x : String) : x.length > 0 ↔ x ≠ "" := by
  cases x with
  | mk l =>
    cases l with
    | nil => simp [String.length]
    | cons c l =>
      simp only [String.length, List.length_cons, gt_iff_lt, Nat.zero_lt_succ, true_iff]
      intro h
      have := congrArg String.data h
      simp at this

/-- C15: for every frame output state, pad width, offset and flag, and whatever the two maps
held before, after `GetFilenameFormatArguments` each of the six metadata entries is present and
equals its filename-argument counterpart. -/
theorem metadata_eq_filename_arguments (s : FMoviePipelineFrameOutputState)
    (a : FMoviePipelineFormatArgs) (w o : Int) (flag : Bool) :
    ((GetFilenameFormatArguments s a w o flag).FileMetadata "unreal/sequenceFrameNumber"
        = (GetFilenameFormatArguments s a w o flag).FilenameArguments "frame_number"
      ∧ (GetFilenameFormatArguments s a w o flag).FileMetadata "unreal/shotFrameNumber"
        = (GetFilenameFormatArguments s a w o flag).FilenameArguments "frame_number_shot"
      ∧ (GetFilenameFormatArguments s a w o flag).FileMetadata
          "unreal/sequenceFrameNumberRelative"
        = (GetFilenameFormatArguments s a w o flag).FilenameArguments "frame_number_rel"
      ∧ (GetFilenameFormatArguments s a w o flag).FileMetadata "unreal/shotFrameNumberRelative"
        = (GetFilenameFormatArguments s a w o flag).FilenameArguments "frame_number_shot_rel"
      ∧ (GetFilenameFormatArguments s a w o flag).FileMetadata "unreal/cameraName"
        = (GetFilenameFormatArguments s a w o flag).FilenameArguments "camera_name"
      ∧ (GetFilenameFormatArguments s a w o flag).FileMetadata "unreal/shotName"
        = (GetFilenameFormatArguments s a w o flag).FilenameArguments "shot_name")
    ∧ ((GetFilenameFormatArguments s a w o flag).FileMetadata "unreal/sequenceFrameNumber"
        ≠ none
      ∧ (GetFilenameFormatArguments s a w o flag).FileMetadata "unreal/shotFrameNumber" ≠ none
      ∧ (GetFilenameFormatArguments s a w o flag).FileMetadata
          "unreal/sequenceFrameNumberRelative" ≠ none
      ∧ (GetFilenameFormatArguments s a w o flag).FileMetadata "unreal/shotFrameNumberRelative"
        ≠ none
      ∧ (GetFilenameFormatArguments s a w o flag).FileMetadata "unreal/cameraName" ≠ none
      ∧ (GetFilenameFormatArguments s a w o flag).FileMetadata "unreal/shotName" ≠ none) := by
  obtain ⟨m1, m2, m3, m4, m5, m6⟩ := GetFilenameFormatArguments_metadata s a w o flag
  obtain ⟨f1, f2, f3, f4⟩ := GetFilenameFormatArguments_frame_tokens s a w o flag
  obtain ⟨f5, f6⟩ := GetFilenameFormatArguments_names s a w o flag
  rw [m1, m2, m3, m4, m5, m6, f1, f2, f3, f4, f5, f6]
  exact ⟨⟨rfl, rfl, rfl, rfl, rfl, rfl⟩,
    ⟨Option.some_ne_none _, Option.some_ne_none _, Option.some_ne_none _,
      Option.some_ne_none _, Option.some_ne_none _, Option.some_ne_none _⟩⟩

/-- C16: for every frame output state the `camera_name` token is `CameraName` when that is not
empty and `NoCamera` when it is, the `shot_name` token is `ShotName` when that is not empty and
`NoShot` when it is, and neither token is the empty string. -/
theorem name_tokens_never_empty (s : FMoviePipelineFrameOutputState)
    (a : FMoviePipelineFormatArgs) (w o : Int) (flag : Bool) :
    (GetFilenameFormatArguments s a w o flag).FilenameArguments "camera_name"
        = some (if s.CameraName = "" then "NoCamera" else s.CameraName)
      ∧ (GetFilenameFormatArguments s a w o flag).FilenameArguments "shot_name"
        = some (if s.ShotName = "" then "NoShot" else s.ShotName)
      ∧ (GetFilenameFormatArguments s a w o flag).FilenameArguments "camera_name" ≠ some ""
      ∧ (GetFilenameFormatArguments s a w o flag).FilenameArguments "shot_name" ≠ some "" := by
  obtain ⟨f5, f6⟩ := GetFilenameFormatArguments_names s a w o flag
  have key : ∀ (x d : String), d ≠ "" →
      (if x.length > 0 then x else d) = (if x = "" then d else x)
        ∧ (if x.length > 0 then x else d) ≠ "" := by
    intro x d hd
    by_cases hx : x = ""
    · have hl : ¬ x.length > 0 := fun h => (String_length_pos_iff x).mp h hx
      rw [if_neg hl, if_pos hx]
      exact ⟨rfl, hd⟩
    · have hl : x.length > 0 := (String_length_pos_iff x).mpr hx
      rw [if_pos hl, if_neg hx]
      exact ⟨rfl, hx⟩
  obtain ⟨c1, c2⟩ := key s.CameraName "NoCamera" (by decide)
  obtain ⟨n1, n2⟩ := key s.ShotName "NoShot" (by decide)
  rw [f5, f6, c1, n1]
  refine ⟨rfl, rfl, ?_, ?_⟩
  · intro h
    rw [← c1] at h
    exact c2 (Option.some.inj h)
  · intro h
    rw [← n1] at h
    exact n2 (Option.some.inj h)

/-! ## The weight table of an ordered tile -/

/-- Whatever its argument, `Clamp` to `[0, 1]` returns a value in `[0, 1]`. -/
theorem Clamp_mem_unit (x : ℚ) : 0 ≤ Clamp x 0 1 ∧ Clamp x 0 1 ≤ 1 := by
  unfold Clamp
  by_cases h0 : x < 0
  · rw [if_pos h0]
    exact ⟨le_refl _, zero_le_one⟩
  · rw [if_neg h0]
    by_cases h1 : x < 1
    · rw [if_pos h1]
      exact ⟨not_lt.mp h0, h1.le⟩
    · rw [if_neg h1]
      exact ⟨zero_le_one, le_refl _⟩

/-- C17: for every tile with `0 ≤ X0 ≤ X1 ≤ X2 ≤ X3 ≤ Size`, and whatever the array held
before, `CalculateArrayWeight` returns an array of exactly `Size` entries, each of which lies in
`[0, 1]`. -/
theorem CalculateArrayWeight_length_and_range (t : FTileWeight1D) (WeightData : List ℚ)
    (Size : Int) (h0 : 0 ≤ t.X0) (h01 : t.X0 ≤ t.X1) (h12 : t.X1 ≤ t.X2) (h23 : t.X2 ≤ t.X3)
    (h3 : t.X3 ≤ Size) :
    ∃ Data, CalculateArrayWeight t WeightData Size = Except.ok Data
      ∧ (Data.length : Int) = Size
      ∧ ∀ w ∈ Data, 0 ≤ w ∧ w ≤ 1 := by
  obtain ⟨Data, hD, hlen, hget⟩ := CalculateArrayWeight_entries t WeightData Size
    ⟨h0, by omega⟩ ⟨by omega, by omega⟩ ⟨by omega, by omega⟩ ⟨by omega, h3⟩
  have hS : 0 ≤ Size := by omega
  have hlenZ : (Data.length : Int) = Size := by
    rw [hlen]
    exact Int.toNat_of_nonneg hS
  refine ⟨Data, hD, hlenZ, fun w hw => ?_⟩
  obtain ⟨i, hi⟩ := List.mem_iff_getElem?.mp hw
  obtain ⟨hlt, -⟩ := List.getElem?_eq_some.mp hi
  have hiS : (i : Int) < Size := by omega
  rw [hget i hiS] at hi
  have hv := Option.some.inj hi
  rw [← hv]
  split_ifs
  · exact ⟨le_refl _, zero_le_one⟩
  · exact Clamp_mem_unit _
  · exact ⟨zero_le_one, le_refl _⟩
  · exact Clamp_mem_unit _
  · exact ⟨le_refl _, zero_le_one⟩

/-- C17 at the tile `(1, 3, 5, 7)` with `Size = 8` and an empty incoming array. -/
theorem CalculateArrayWeight_length_and_range_witness :
    ∃ Data, CalculateArrayWeight { X0 := 1, X1 := 3, X2 := 5, X3 := 7 } [] 8 = Except.ok Data
      ∧ (Data.length : Int) = 8
      ∧ ∀ w ∈ Data, 0 ≤ w ∧ w ≤ 1 :=
  CalculateArrayWeight_length_and_range { X0 := 1, X1 := 3, X2 := 5, X3 := 7 } [] 8
    (by decide) (by decide) (by decide) (by decide) (by decide)

/-- C20: for every tile with `0 ≤ X0 ≤ X1 ≤ X2 ≤ X3 ≤ Size` and every index `i` of
`[0, Size)`, entry `i` of the array `CalculateArrayWeight` returns is the trapezoid sampled at
the pixel centre `i + 1/2`: `0` for `i < X0`, `(i + 1/2 - X0) / (X1 - X0)` for `X0 ≤ i < X1`,
`1` for `X1 ≤ i < X2`, `1 - (i + 1/2 - X2) / (X3 - X2)` for `X2 ≤ i < X3`, `0` for `i ≥ X3`.
The clamp never changes these values. -/
theorem CalculateArrayWeight_eq_CentreSample (t : FTileWeight1D) (WeightData : List ℚ)
    (Size : Int) (h0 : 0 ≤ t.X0) (h01 : t.X0 ≤ t.X1) (h12 : t.X1 ≤ t.X2) (h23 : t.X2 ≤ t.X3)
    (h3 : t.X3 ≤ Size) :
    ∃ Data, CalculateArrayWeight t WeightData Size = Except.ok Data
      ∧ ∀ i : Nat, (i : Int) < Size → Data[i]? = some (CentreSample t (i : Int)) := by
  obtain ⟨Data, hD, -, hget⟩ := CalculateArrayWeight_entries t WeightData Size
    ⟨h0, by omega⟩ ⟨by omega, by omega⟩ ⟨by omega, by omega⟩ ⟨by omega, h3⟩
  refine ⟨Data, hD, fun i hi => ?_⟩
  rw [hget i hi]
  congr 1
  unfold CentreSample
  by_cases c3 : t.X3 ≤ (i : Int)
  · rw [if_pos c3, if_neg (by omega), if_neg (by omega), if_neg (by omega), if_neg (by omega)]
  · rw [if_neg c3]
    by_cases c2 : t.X2 ≤ (i : Int)
    · rw [if_pos c2, if_neg (by omega), if_neg (by omega), if_neg (by omega),
        if_pos (by omega)]
      exact down_ramp_store t i c2 (by omega)
    · rw [if_neg c2]
      by_cases c1 : t.X1 ≤ (i : Int)
      · rw [if_pos c1, if_neg (by omega), if_neg (by omega), if_pos (by omega)]
      · rw [if_neg c1]
        by_cases c0 : t.X0 ≤ (i : Int)
        · rw [if_pos c0, if_neg (by omega), if_pos (by omega)]
          exact up_ramp_store t i c0 (by omega)
        · rw [if_neg c0, if_pos (by omega)]

/-- C20 at the tile `(1, 3, 5, 7)` with `Size = 8` and an empty incoming array. -/
theorem CalculateArrayWeight_eq_CentreSample_witness :
    ∃ Data, CalculateArrayWeight { X0 := 1, X1 := 3, X2 := 5, X3 := 7 } [] 8 = Except.ok Data
      ∧ ∀ i : Nat, (i : Int) < 8 →
          Data[i]? = some (CentreSample { X0 := 1, X1 := 3, X2 := 5, X3 := 7 } (i : Int)) :=
  CalculateArrayWeight_eq_CentreSample { X0 := 1, X1 := 3, X2 := 5, X3 := 7 } [] 8
    (by decide) (by decide) (by decide) (by decide) (by decide)

/-! ## No division by zero -/

/-- A quotient by a divisor that is not zero is taken. -/
theorem FloatDiv_of_ne_zero (a b : ℚ) (hb : b ≠ 0) : FloatDiv a b = some (a / b) := by
  unfold FloatDiv
  rw [if_neg hb]

/-- C18: division by zero is unreachable in the weight math, for every four integer
coordinates, ordered or not. In `CalculateWeight` the up-ramp branch is taken only when
`X1 - X0 > 0` and the down-ramp branch only when `X3 - X2 > 0`, so the call never divides by
zero and returns the value of `CalculateWeight`. In `CalculateArrayWeight` neither scale factor
divides by zero, and each is `0` exactly when its interval has zero width. -/
theorem weight_math_never_divides_by_zero (t : FTileWeight1D) (Pixel : Int) :
    (CalculateWeightBranch t Pixel = EWeightBranch.UpRamp → 0 < t.X1 - t.X0)
      ∧ (CalculateWeightBranch t Pixel = EWeightBranch.DownRamp → 0 < t.X3 - t.X2)
      ∧ CalculateWeightChecked t Pixel = some (CalculateWeight t Pixel)
      ∧ ScaleLhsChecked t = some (ScaleLhs t)
      ∧ ScaleRhsChecked t = some (ScaleRhs t)
      ∧ (ScaleLhs t = 0 ↔ t.X1 - t.X0 = 0)
      ∧ (ScaleRhs t = 0 ↔ t.X3 - t.X2 = 0) := by
  refine ⟨?_, ?_, ?_, ?_, ?_, ?_, ?_⟩
  · unfold CalculateWeightBranch
    split_ifs <;> intro h
    · exact absurd h (by decide)
    · omega
    · exact absurd h (by decide)
    · exact absurd h (by decide)
    · exact absurd h (by decide)
  · unfold CalculateWeightBranch
    split_ifs <;> intro h
    · exact absurd h (by decide)
    · exact absurd h (by decide)
    · exact absurd h (by decide)
    · omega
    · exact absurd h (by decide)
  · unfold CalculateWeightChecked CalculateWeight
    split_ifs with c0 c1 c2 c3
    · rfl
    · apply FloatDiv_of_ne_zero
      have : t.X1 - t.X0 ≠ 0 := by omega
      exact_mod_cast this
    · rfl
    · apply FloatDiv_of_ne_zero
      have : t.X3 - t.X2 ≠ 0 := by omega
      exact_mod_cast this
    · rfl
  · unfold ScaleLhsChecked ScaleLhs
    split_ifs with c
    · apply FloatDiv_of_ne_zero
      have : t.X1 - t.X0 ≠ 0 := by omega
      exact_mod_cast this
    · rfl
  · unfold ScaleRhsChecked ScaleRhs
    split_ifs with c
    · apply FloatDiv_of_ne_zero
      have : t.X3 - t.X2 ≠ 0 := by omega
      exact_mod_cast this
    · rfl
  · unfold ScaleLhs
    split_ifs with c
    · have hne : t.X1 - t.X0 ≠ 0 := by omega
      have hq : ((t.X1 - t.X0 : Int) : ℚ) ≠ 0 := by exact_mod_cast hne
      constructor
      · intro h
        exact absurd h (one_div_ne_zero hq)
      · intro h
        exact absurd h hne
    · constructor
      · intro _
        omega
      · intro _
        rfl
  · unfold ScaleRhs
    split_ifs with c
    · have hne : t.X3 - t.X2 ≠ 0 := by omega
      have hq : ((t.X3 - t.X2 : Int) : ℚ) ≠ 0 := by exact_mod_cast hne
      constructor
      · intro h
        exact absurd h (one_div_ne_zero hq)
      · intro h
        exact absurd h hne
    · constructor
      · intro _
        omega
      · intro _
        rfl

/-! ## States the transition leaves alone -/

/-- C21: for every countdown value and flag, `SetNextStateAfter` called for `MotionBlur` or for
`Rendering` returns the record it was given, so the shot state is unchanged: the function
neither performs the step from `MotionBlur` to `Rendering` nor leaves `Rendering`. -/
theorem SetNextStateAfter_leaves_MotionBlur_and_Rendering (c : FMoviePipelineCameraCutInfo) :
    SetNextStateAfter c .MotionBlur = c
      ∧ SetNextStateAfter c .Rendering = c
      ∧ (SetNextStateAfter c .MotionBlur).State = c.State
      ∧ (SetNextStateAfter c .Rendering).State = c.State :=
  ⟨rfl, rfl, rfl, rfl⟩

/-! ## The estimate never undercounts -/

/-- C22: for every positive frame rate and tick resolution whose floored per-frame tick count is
at least `1`, and every range of length `L ≥ 0` ticks, `GetOutputFrameCountEstimate` returns a
value that is at least `⌈L * frameRate / tickResolution⌉`, the exact number of output frames
the range spans. -/
theorem GetOutputFrameCountEstimate_never_undercounts (k : Int)
    (c : FMoviePipelineCameraCutInfo)
    (_hF : 0 < c.CachedFrameRate.AsRational) (hT : 0 < c.CachedTickResolution.AsRational)
    (ht : 1 ≤ OneFrameInTicks c) (hL : 0 ≤ c.TotalOutputRangeLocal.Size) :
    ∃ n, GetOutputFrameCountEstimate k c = Except.ok n
      ∧ Int.ceil ((c.TotalOutputRangeLocal.Size : ℚ) * c.CachedFrameRate.AsRational
          / c.CachedTickResolution.AsRational) ≤ n := by
  refine ⟨_, GetOutputFrameCountEstimate_of_ne_zero k c (by omega), ?_⟩
  apply Int.ceil_le_ceil
  have htq : (1 : ℚ) ≤ (OneFrameInTicks c : ℚ) := by exact_mod_cast ht
  have hpos : (0 : ℚ) < (OneFrameInTicks c : ℚ) := by linarith
  have hle : (OneFrameInTicks c : ℚ)
      ≤ c.CachedTickResolution.AsRational / c.CachedFrameRate.AsRational := by
    rw [OneFrameInTicks_eq_floor]
    exact Int.floor_le _
  have hLq : (0 : ℚ) ≤ (c.TotalOutputRangeLocal.Size : ℚ) := by exact_mod_cast hL
  have e : (c.TotalOutputRangeLocal.Size : ℚ) * c.CachedFrameRate.AsRational
        / c.CachedTickResolution.AsRational
      = (c.TotalOutputRangeLocal.Size : ℚ)
        / (c.CachedTickResolution.AsRational / c.CachedFrameRate.AsRational) := by
    field_simp
  rw [e]
  exact div_le_div_of_nonneg_left hLq hpos hle

/-- C22 at the sample cut: 24 frames per second on 24000 ticks per second, a range of 3000
ticks. -/
theorem GetOutputFrameCountEstimate_never_undercounts_witness :
    ∃ n, GetOutputFrameCountEstimate 0 SampleCut = Except.ok n
      ∧ Int.ceil ((SampleCut.TotalOutputRangeLocal.Size : ℚ) * SampleCut.CachedFrameRate.AsRational
          / SampleCut.CachedTickResolution.AsRational) ≤ n :=
  GetOutputFrameCountEstimate_never_undercounts 0 SampleCut
    (by norm_num [SampleCut, FFrameRate.AsRational])
    (by norm_num [SampleCut, FFrameRate.AsRational])
    (by norm_num [OneFrameInTicks, SampleCut, TransformTimeFloor, FFrameRate.AsRational])
    (by decide)

/-! ## Which indices `CalculateArrayWeight` stores to -/

/-- C24 as stated fails beyond the `int32` range: `InitHelper(1000000000, 1, 0)` passes its
checks, `3 * PadLeft` wraps, the tile is `(500000000, -647483648, 1647483649, 1000000001)`, and
with `Size = 1000000001` the third loop of `CalculateArrayWeight` stores to index `-647483648`,
outside `[0, Size)`; the call fails at a range check. -/
theorem CalculateArrayWeight_stores_outside_at_large_pad :
    ∃ t, InitHelper 1000000000 1 0 = Except.ok t
      ∧ t = { X0 := 500000000, X1 := -647483648, X2 := 1647483649, X3 := 1000000001 }
      ∧ (∃ w ∈ CalculateArrayWeightWrites t (1000000000 + 1 + 0),
          ¬ (0 ≤ w.1 ∧ w.1 < 1000000000 + 1 + 0))
      ∧ (∃ e, CalculateArrayWeight t [] (1000000000 + 1 + 0) = Except.error e) :=
  ⟨_, InitHelper_wraps_at_large_pad, rfl, store_below_zero_at_large_pad,
    CalculateArrayWeight_fails_at_large_pad []⟩

/-- C24, amended to the `int32` range: for every `PadLeft ≥ 0`, `SizeCenter > 0`,
`PadRight ≥ 0` for which `3 * PadLeft` and `PadLeft + SizeCenter + PadRight` fit in `int32`,
with the tile built by `InitHelper` and `Size = PadLeft + SizeCenter + PadRight`,
`CalculateArrayWeight` succeeds (no store fails its range check), every store of its five loops
goes to an index inside `[0, Size)`, and every index of `[0, Size)` is stored to at least once.
No order between `X2` and `X3` is assumed. -/
theorem CalculateArrayWeight_stores_cover_table (PadLeft SizeCenter PadRight : Int)
    (hL : 0 ≤ PadLeft) (hC : 0 < SizeCenter) (hR : 0 ≤ PadRight)
    (hP3 : 3 * PadLeft ≤ 2147483647)
    (hSz : PadLeft + SizeCenter + PadRight ≤ 2147483647)
    (WeightData : List ℚ) :
    ∃ t Data, InitHelper PadLeft SizeCenter PadRight = Except.ok t
      ∧ CalculateArrayWeight t WeightData (PadLeft + SizeCenter + PadRight) = Except.ok Data
      ∧ (∀ w ∈ CalculateArrayWeightWrites t (PadLeft + SizeCenter + PadRight),
          0 ≤ w.1 ∧ w.1 < PadLeft + SizeCenter + PadRight)
      ∧ (∀ i : Int, 0 ≤ i → i < PadLeft + SizeCenter + PadRight →
          ∃ w ∈ CalculateArrayWeightWrites t (PadLeft + SizeCenter + PadRight), w.1 = i) := by
  obtain ⟨t, ht, b0, b01, b12, b2S, b13, b3S, -⟩ :=
    InitHelper_bounds PadLeft SizeCenter PadRight hL hC hR hP3 hSz
  obtain ⟨Data, hD, -, -⟩ := CalculateArrayWeight_entries t WeightData
    (PadLeft + SizeCenter + PadRight) ⟨b0, by omega⟩ ⟨by omega, by omega⟩ ⟨by omega, b2S⟩
    ⟨by omega, b3S⟩
  refine ⟨t, Data, ht, hD, ?_, ?_⟩
  · intro w hw
    unfold CalculateArrayWeightWrites at hw
    simp only [List.mem_append, mem_ForLoopWrites] at hw
    omega
  · intro i hi0 hiS
    unfold CalculateArrayWeightWrites
    by_cases c3 : t.X3 ≤ i
    · exact ⟨_, List.mem_append_right _ (index_mem_ForLoopWrites _ _ _ i c3 hiS), rfl⟩
    · by_cases c2 : t.X2 ≤ i
      · exact ⟨_, List.mem_append_left _ (List.mem_append_right _
          (index_mem_ForLoopWrites _ _ _ i c2 (by omega))), rfl⟩
      · by_cases c1 : t.X1 ≤ i
        · exact ⟨_, List.mem_append_left _ (List.mem_append_left _
            (List.mem_append_right _ (index_mem_ForLoopWrites _ _ _ i c1 (by omega)))), rfl⟩
        · by_cases c0 : t.X0 ≤ i
          · exact ⟨_, List.mem_append_left _ (List.mem_append_left _
              (List.mem_append_left _ (List.mem_append_right _
                (index_mem_ForLoopWrites _ _ _ i c0 (by omega))))), rfl⟩
          · exact ⟨_, List.mem_append_left _ (List.mem_append_left _
              (List.mem_append_left _ (List.mem_append_left _
                (index_mem_ForLoopWrites _ _ _ i hi0 (by omega))))), rfl⟩

/-- C24 (amended) at the inputs `(0, 1, 2)`, whose tile `(0, 0, 3, 2)` has `X2` above `X3`. -/
theorem CalculateArrayWeight_stores_cover_table_witness :
    ∃ t Data, InitHelper 0 1 2 = Except.ok t
      ∧ CalculateArrayWeight t [] (0 + 1 + 2) = Except.ok Data
      ∧ (∀ w ∈ CalculateArrayWeightWrites t (0 + 1 + 2), 0 ≤ w.1 ∧ w.1 < 0 + 1 + 2)
      ∧ (∀ i : Int, 0 ≤ i → i < 0 + 1 + 2 →
          ∃ w ∈ CalculateArrayWeightWrites t (0 + 1 + 2), w.1 = i) :=
  CalculateArrayWeight_stores_cover_table 0 1 2 (by decide) (by decide) (by decide) (by decide)
    (by decide) []

/-! ## Zero-padding and order -/

/-- `FixedDigits w n` has `w` characters. -/
theorem FixedDigits_length (w n : Nat) : (FixedDigits w n).length = w := by
  induction w generalizing n with
  | zero => rfl
  | succ w ih => simp [FixedDigits, ih]

/-- The digits of zero are all `'0'`. -/
theorem FixedDigits_zero (w : Nat) : FixedDigits w 0 = List.replicate w '0' := by
  induction w with
  | zero => rfl
  | succ w ih =>
    rw [FixedDigits, List.replicate_succ', Nat.zero_div, ih]
    rfl

/-- The accumulator of `Nat.toDigitsCore` is a suffix of its result. -/
theorem toDigitsCore_append (fuel : Nat) : ∀ (n : Nat) (ds : List Char),
    Nat.toDigitsCore 10 fuel n ds = Nat.toDigitsCore 10 fuel n [] ++ ds := by
  induction fuel with
  | zero => intro n ds; rfl
  | succ f ih =>
    intro n ds
    simp only [Nat.toDigitsCore]
    by_cases h : n / 10 = 0
    · simp only [h, if_true]
      rfl
    · simp only [h, if_false]
      rw [ih (n / 10) (Nat.digitChar (n % 10) :: ds), ih (n / 10) [Nat.digitChar (n % 10)]]
      simp

/-- With enough fuel, the decimal digits of `n < 10 ^ w` left-padded with `'0'` to `w` characters
are the `w` fixed-width digits of `n`. -/
theorem pad_toDigitsCore (fuel : Nat) : ∀ (n w : Nat), n < fuel → n < 10 ^ w → 1 ≤ w →
    List.replicate (w - (Nat.toDigitsCore 10 fuel n []).length) '0'
        ++ Nat.toDigitsCore 10 fuel n [] = FixedDigits w n := by
  induction fuel with
  | zero => intro n w h; omega
  | succ f ih =>
    intro n w hf hn hw
    obtain ⟨v, rfl⟩ : ∃ v, w = v + 1 := ⟨w - 1, by omega⟩
    simp only [Nat.toDigitsCore]
    by_cases h : n / 10 = 0
    · simp only [h, if_true, List.length_singleton]
      rw [FixedDigits, h, FixedDigits_zero]
      simp
    · simp only [h, if_false]
      rw [toDigitsCore_append f (n / 10) [Nat.digitChar (n % 10)]]
      have hv : 1 ≤ v := by
        rcases Nat.eq_zero_or_pos v with h0 | h0
        · subst h0
          simp at hn
          omega
        · exact h0
      have hn' : n / 10 < 10 ^ v := by
        rw [pow_succ] at hn
        omega
      have := ih (n / 10) v (by omega) hn' hv
      rw [FixedDigits, ← this]
      simp only [List.length_append, List.length_singleton, List.append_assoc]
      congr 2
      omega

/-- On the ten decimal digits `Nat.digitChar` is strictly increasing in character code. -/
theorem digitChar_lt (i j : Nat) (hij : i < j) (hj : j < 10) :
    Nat.digitChar i < Nat.digitChar j := by
  interval_cases j <;> interval_cases i <;> decide

/-- Two lists of one length that are in lexicographic order stay so whatever is appended to
each. -/
theorem Lex_append_of_length_eq (l1 l2 : List Char) (h : List.Lex (· < ·) l1 l2) :
    l1.length = l2.length → ∀ x y : List Char, List.Lex (· < ·) (l1 ++ x) (l2 ++ y) := by
  induction h with
  | nil => intro hl; simp at hl
  | cons _ ih =>
    intro hl x y
    exact List.Lex.cons (ih (by simpa using hl) x y)
  | rel hr =>
    intro _ x y
    exact List.Lex.rel hr

/-- Fixed-width digits are in lexicographic order when the numbers are in numeric order. -/
theorem FixedDigits_lex (w : Nat) : ∀ a b : Nat, a < b → b < 10 ^ w →
    List.Lex (· < ·) (FixedDigits w a) (FixedDigits w b) := by
  induction w with
  | zero => intro a b hab hb; simp at hb; omega
  | succ w ih =>
    intro a b hab hb
    rw [pow_succ] at hb
    rw [FixedDigits, FixedDigits]
    by_cases h : a / 10 < b / 10
    · exact Lex_append_of_length_eq _ _ (ih _ _ h (by omega))
        (by rw [FixedDigits_length, FixedDigits_length]) _ _
    · have e : a / 10 = b / 10 := by omega
      rw [e]
      apply List.Lex.append_left
      exact List.Lex.rel (digitChar_lt _ _ (by omega) (by omega))

/-- For a pad width `w ≥ 1` and `0 ≤ n < 10 ^ w` the token of `GetPaddingFormatString` is the
`w` fixed-width digits of `n`. -/
theorem GetPaddingFormatString_eq_FixedDigits (w n : Nat) (hw : 1 ≤ w) (hn : n < 10 ^ w) :
    GetPaddingFormatString (w : Int) (n : Int) = String.mk (FixedDigits w n) := by
  have h0 : ¬ ((n : Int) < 0) := by omega
  have hw0 : (0 : Int) ≤ (w : Int) := by omega
  unfold GetPaddingFormatString PrintfZeroPadded
  simp only [if_neg h0, if_pos hw0, List.length_nil, List.nil_append, Int.toNat_ofNat,
    Int.natAbs_ofNat, Nat.zero_add]
  congr 1
  exact pad_toDigitsCore (n + 1) n w (by omega) hn hw

/-- C23: for every pad width `w ≥ 1` and all integers `a`, `b` with `0 ≤ a < b < 10 ^ w`, the
tokens `GetPaddingFormatString(w, a)` and `GetPaddingFormatString(w, b)` both have exactly `w`
characters, and the first is strictly smaller than the second in the order of strings, which
is the lexicographic order of their characters by character code. -/
theorem GetPaddingFormatString_order (w : Nat) (a b : Int) (hw : 1 ≤ w) (ha : 0 ≤ a)
    (hab : a < b) (hb : b < 10 ^ w) :
    (GetPaddingFormatString (w : Int) a).length = w
      ∧ (GetPaddingFormatString (w : Int) b).length = w
      ∧ GetPaddingFormatString (w : Int) a < GetPaddingFormatString (w : Int) b
      ∧ List.Lex (fun c d : Char => c < d) (GetPaddingFormatString (w : Int) a).toList
          (GetPaddingFormatString (w : Int) b).toList := by
  obtain ⟨m, rfl⟩ : ∃ m : Nat, a = (m : Int) := ⟨a.toNat, by omega⟩
  obtain ⟨n, rfl⟩ : ∃ n : Nat, b = (n : Int) := ⟨b.toNat, by omega⟩
  have hmn : m < n := by exact_mod_cast hab
  have hn : n < 10 ^ w := by exact_mod_cast hb
  have hm : m < 10 ^ w := lt_trans hmn hn
  rw [GetPaddingFormatString_eq_FixedDigits w m hw hm,
    GetPaddingFormatString_eq_FixedDigits w n hw hn]
  have hlex := FixedDigits_lex w m n hmn hn
  refine ⟨?_, ?_, ?_, hlex⟩
  · show (FixedDigits w m).length = w
    exact FixedDigits_length w m
  · show (FixedDigits w n).length = w
    exact FixedDigits_length w n
  · rw [String.lt_iff_toList_lt]
    exact hlex

/-- C23 at pad width `4` with `a = 9` and `b = 10`: the tokens `0009` and `0010`. -/
theorem GetPaddingFormatString_order_witness :
    (GetPaddingFormatString 4 9).length = 4
      ∧ (GetPaddingFormatString 4 10).length = 4
      ∧ GetPaddingFormatString 4 9 < GetPaddingFormatString 4 10
      ∧ GetPaddingFormatString 4 9 = "0009"
      ∧ GetPaddingFormatString 4 10 = "0010" :=
  have h := GetPaddingFormatString_order 4 9 10 (by decide) (by decide) (by decide) (by decide)
  ⟨h.1, h.2.1, h.2.2.1, by rfl, by rfl⟩

end MovieRenderPipeline
